import Mathlib

/-!
Verification development for the Fiddler MCP client/bridge repository.

The orchestration core lives in `gemini-fiddler-client.py` (the Gemini-driven
MCP client) and `5ire-bridge.py` (the MCP tool server).  Python values are
shallowly embedded as the inductive `PyVal`; text is embedded as `List Char`
(`S "…"` converts a Lean string literal).  Each Python function that a claim
touches is translated to an executable Lean definition carrying its source
name, with the network / subprocess boundary abstracted as an explicit oracle
function and every outbound request recorded in a trace list.
-/

/-- Convert a Lean string literal to the `List Char` representation used for
all embedded Python text. -/
def S (s : String) : List Char := s.data

/-- Embedding of the Python values the client manipulates: `None`, booleans,
integers, strings, lists and (insertion-ordered) dicts.  Floats never occur in
the code paths under verification and are outside the model. -/
inductive PyVal where
  | pnull
  | pbool (b : Bool)
  | pint (n : Int)
  | pstr (s : List Char)
  | plist (xs : List PyVal)
  | pdict (kvs : List (List Char × PyVal))

open PyVal

/-- Lookup in an association list, mirroring Python `d[k]` / `k in d`. -/
def kvGet (kvs : List (List Char × PyVal)) (k : List Char) : Option PyVal :=
  match kvs with
  | [] => none
  | (k', v) :: rest => if k' = k then some v else kvGet rest k

/-- Assignment `d[k] = v` with Python 3.7 dict semantics: an existing key is
updated in place (keeping its position), a new key is appended at the end. -/
def kvSet (kvs : List (List Char × PyVal)) (k : List Char) (v : PyVal) :
    List (List Char × PyVal) :=
  match kvs with
  | [] => [(k, v)]
  | (k', v') :: rest => if k' = k then (k, v) :: rest else (k', v') :: kvSet rest k v

/-- `d.get(k)` on a dict; `None` (here `none`) for non-dicts, whose attribute
access would raise in the source and is outside the modelled domain. -/
def pyGet (v : PyVal) (k : List Char) : Option PyVal :=
  match v with
  | pdict kvs => kvGet kvs k
  | _ => none

/-- `d.get(k, default)`. -/
def pyGetDef (v : PyVal) (k : List Char) (d : PyVal) : PyVal :=
  match pyGet v k with
  | some x => x
  | none => d

/-- `d.get(k)` returning Python `None` when the key is absent. -/
def pyGetN (v : PyVal) (k : List Char) : PyVal := pyGetDef v k pnull

/-- `d[k] = v` on a dict value (identity on non-dicts, which would raise). -/
def pySet (v : PyVal) (k : List Char) (x : PyVal) : PyVal :=
  match v with
  | pdict kvs => pdict (kvSet kvs k x)
  | _ => v

/-- `d.setdefault(k, x)`: insert `x` under `k` only when `k` is absent. -/
def pySetdefault (v : PyVal) (k : List Char) (x : PyVal) : PyVal :=
  match v with
  | pdict kvs => if (kvGet kvs k).isSome then pdict kvs else pdict (kvSet kvs k x)
  | _ => v

/-- Python truthiness of the embedded values. -/
def pyTruthy : PyVal → Bool
  | pnull => false
  | pbool b => b
  | pint n => n != 0
  | pstr s => !s.isEmpty
  | plist xs => !xs.isEmpty
  | pdict kvs => !kvs.isEmpty

/-- Whether the value is a dict (`isinstance(x, dict)`). -/
def isDict : PyVal → Bool
  | pdict _ => true
  | _ => false

/-- Decimal digits of a natural number. -/
def natDigits (n : Nat) : List Char :=
  (Nat.toDigits 10 n)

/-- `str(n)` for an embedded integer. -/
def intStr (n : Int) : List Char :=
  if n < 0 then '-' :: natDigits n.natAbs else natDigits n.natAbs

mutual

/-- Python `repr` of an embedded value (string quoting approximated with plain
single quotes, escaping omitted; used only to render log/note text). -/
def pyRepr : PyVal → List Char
  | pnull => S "None"
  | pbool b => if b then S "True" else S "False"
  | pint n => intStr n
  | pstr s => '\x27' :: s ++ ['\x27']
  | plist xs => '\x5b' :: pyReprList xs ++ [']']
  | pdict kvs => '\x7b' :: pyReprKvs kvs ++ ['\x7d']

/-- Comma-separated reprs of list elements. -/
def pyReprList : List PyVal → List Char
  | [] => []
  | [x] => pyRepr x
  | x :: rest => pyRepr x ++ S ", " ++ pyReprList rest

/-- Comma-separated reprs of dict items. -/
def pyReprKvs : List (List Char × PyVal) → List Char
  | [] => []
  | [(k, v)] => pyRepr (pstr k) ++ S ": " ++ pyRepr v
  | (k, v) :: rest => pyRepr (pstr k) ++ S ": " ++ pyRepr v ++ S ", " ++ pyReprKvs rest

end

/-- Python `str()` of an embedded value. -/
def pyToStr : PyVal → List Char
  | pstr s => s
  | v => pyRepr v

/-- Characters stripped by Python `str.strip()` (ASCII whitespace). -/
def isPySpace (c : Char) : Bool :=
  c == ' ' || c == '\t' || c == '\n' || c == '\r' || c == '\x0b' || c == '\x0c'

/-- Python `str.strip()`. -/
def pyStrip (cs : List Char) : List Char :=
  ((cs.dropWhile isPySpace).reverse.dropWhile isPySpace).reverse

/-- Whitespace accepted between JSON tokens by `json.loads`. -/
def isJsonWs (c : Char) : Bool :=
  c == ' ' || c == '\t' || c == '\n' || c == '\r'

/-- Consume an exact literal, returning the remainder. -/
def dropLit : List Char → List Char → Option (List Char)
  | [], cs => some cs
  | _ :: _, [] => none
  | l :: ls, c :: cs => if c = l then dropLit ls cs else none

/-- Hex digit value, if any. -/
def hexVal (c : Char) : Option Nat :=
  if '0' ≤ c ∧ c ≤ '9' then some (c.toNat - 48)
  else if 'a' ≤ c ∧ c ≤ 'f' then some (c.toNat - 87)
  else if 'A' ≤ c ∧ c ≤ 'F' then some (c.toNat - 70)
  else none

/-- Body of a JSON string literal (opening quote already consumed): strict
`json.loads` rules — raw control characters are rejected, the standard escapes
and `\uXXXX` are decoded (surrogate pairs outside the model). -/
def jsonString : List Char → Option (List Char × List Char)
  | [] => none
  | '"' :: rest => some ([], rest)
  | '\\' :: 'u' :: a :: b :: c :: d :: rest =>
    match hexVal a, hexVal b, hexVal c, hexVal d with
    | some ha, some hb, some hc, some hd =>
      (jsonString rest).map (fun (s, r) =>
        (Char.ofNat (((ha * 16 + hb) * 16 + hc) * 16 + hd) :: s, r))
    | _, _, _, _ => none
  | '\\' :: e :: rest =>
    let dec : Option Char :=
      if e = '"' then some '"'
      else if e = '\\' then some '\\'
      else if e = '/' then some '/'
      else if e = 'b' then some '\x08'
      else if e = 'f' then some '\x0c'
      else if e = 'n' then some '\n'
      else if e = 'r' then some '\r'
      else if e = 't' then some '\t'
      else none
    match dec with
    | some ch => (jsonString rest).map (fun (s, r) => (ch :: s, r))
    | none => none
  | c :: rest =>
    if c.toNat < 32 then none
    else (jsonString rest).map (fun (s, r) => (c :: s, r))

/-- Digits to a natural number. -/
def digitsToNat (ds : List Char) : Nat :=
  ds.foldl (fun a c => a * 10 + (c.toNat - 48)) 0

/-- JSON integer literal (floats — a following `.`, `e` or `E` — are outside
the model and rejected). -/
def jsonNumber (cs : List Char) : Option (PyVal × List Char) :=
  let neg := match cs with
    | '-' :: _ => true
    | _ => false
  let cs1 := if neg then cs.drop 1 else cs
  match cs1 with
  | c :: _ =>
    if !c.isDigit then none
    else
      let ds := cs1.takeWhile Char.isDigit
      let rest := cs1.dropWhile Char.isDigit
      if 1 < ds.length ∧ c = '0' then none
      else
        match rest with
        | '.' :: _ => none
        | 'e' :: _ => none
        | 'E' :: _ => none
        | _ =>
          let n : Int := (digitsToNat ds : Int)
          some (pint (if neg then -n else n), rest)
  | [] => none

mutual

/-- Recursive-descent model of `json.loads` on one value; `fuel` bounds the
recursion depth (any fuel of at least the input length suffices). -/
def jsonValue : Nat → List Char → Option (PyVal × List Char)
  | 0, _ => none
  | f + 1, cs =>
    match cs.dropWhile isJsonWs with
    | [] => none
    | c :: rest =>
      if c = '\x7b' then jsonMembers f rest true []
      else if c = '[' then jsonItems f rest true []
      else if c = '"' then (jsonString rest).map (fun (s, r) => (pstr s, r))
      else if c = 't' then (dropLit (S "rue") rest).map (fun r => (pbool true, r))
      else if c = 'f' then (dropLit (S "alse") rest).map (fun r => (pbool false, r))
      else if c = 'n' then (dropLit (S "ull") rest).map (fun r => (pnull, r))
      else if c = '-' ∨ c.isDigit then jsonNumber (c :: rest)
      else none

/-- Members of a JSON object (after `{`); duplicate keys update in place as in
Python. -/
def jsonMembers : Nat → List Char → Bool → List (List Char × PyVal) →
    Option (PyVal × List Char)
  | 0, _, _, _ => none
  | f + 1, cs, first, acc =>
    match cs.dropWhile isJsonWs with
    | '\x7d' :: rest => if first then some (pdict acc, rest) else none
    | '"' :: rest =>
      match jsonString rest with
      | none => none
      | some (k, r1) =>
        match r1.dropWhile isJsonWs with
        | ':' :: r2 =>
          match jsonValue f r2 with
          | none => none
          | some (v, r3) =>
            match r3.dropWhile isJsonWs with
            | ',' :: r4 => jsonMembers f r4 false (kvSet acc k v)
            | '\x7d' :: r4 => some (pdict (kvSet acc k v), r4)
            | _ => none
        | _ => none
    | _ => none

/-- Items of a JSON array (after `[`). -/
def jsonItems : Nat → List Char → Bool → List PyVal → Option (PyVal × List Char)
  | 0, _, _, _ => none
  | f + 1, cs, first, acc =>
    match cs.dropWhile isJsonWs with
    | ']' :: rest => if first then some (plist acc, rest) else none
    | cs1 =>
      match jsonValue f cs1 with
      | none => none
      | some (v, r1) =>
        match r1.dropWhile isJsonWs with
        | ',' :: r2 => jsonItems f r2 false (acc ++ [v])
        | ']' :: r2 => some (plist (acc ++ [v]), r2)
        | _ => none

end

/-- Model of `json.loads`: parse one value and require only whitespace after
it. -/
def jsonParse (cs : List Char) : Option PyVal :=
  match jsonValue (cs.length + 1) cs with
  | some (v, rest) => if rest.dropWhile isJsonWs = [] then some v else none
  | none => none

example : jsonParse (S " \x7b\"tool\": \"a\", \"arguments\": \x7b\"limit\": 20\x7d\x7d ") =
    some (pdict [(S "tool", pstr (S "a")),
                 (S "arguments", pdict [(S "limit", pint 20)])]) := rfl

example : jsonParse (S "\x5b1, -2, true, null\x5d") =
    some (plist [pint 1, pint (-2), pbool true, pnull]) := rfl

example : jsonParse (S "\x7b\"a\": ") = none := rfl

/-! ## Call Extractor (`parse_gemini_response` and helpers)

The source recovers a tool call from agent text via, in order: a strict
whole-text `json.loads`, two embedded-JSON regex scans, and a plain
`name(arg=value, …)` call-syntax scan.  The regex engine behaviour (greedy
quantifiers, leftmost match, `re.findall` non-overlap) is reproduced by
specialised executable matchers below. -/

/-- `\w` of the source's regexes (ASCII portion). -/
def isWordChar (c : Char) : Bool := c.isAlphanum || c == '_'

/-- Python `str.startswith`: the needle is examined first, so
`strStartsWith [] hay` reduces for symbolic `hay`. -/
def strStartsWith (needle hay : List Char) : Bool :=
  match needle with
  | [] => true
  | n :: ns =>
    match hay with
    | [] => false
    | h :: hs => n == h && strStartsWith ns hs

/-- Split on newline, mirroring Python `text.split("\n")` (the recursive
result is never empty, so `headI`/`tail` read its first line). -/
def splitLines : List Char → List (List Char)
  | [] => [[]]
  | c :: rest =>
    if c = '\n' then [] :: splitLines rest
    else (c :: (splitLines rest).headI) :: (splitLines rest).tail

/-- Join with newline, mirroring Python `"\n".join(lines)`. -/
def joinLines : List (List Char) → List Char
  | [] => []
  | [l] => l
  | l :: ls => l ++ '\n' :: joinLines ls

/-- One step of the regex group `(?:[^{}]|\{[^{}]*\})*` (parameterised by the
open/close characters so the bracket variant `(?:[^\[\]]|\[[^\[\]]*\])*` is the
same definition).  At any position at most one alternative applies, and the
inner star admits no backtracking, so the step is deterministic. -/
def gStep (op cl : Char) : List Char → Option (List Char)
  | [] => none
  | c :: rest =>
    if c = op then
      match rest.dropWhile (fun x => !(x == op || x == cl)) with
      | c' :: r' => if c' = cl then some r' else none
      | [] => none
    else if c = cl then none
    else some rest

/-- All remainders reachable by the greedy star over `gStep`, longest
consumption first — the order in which a backtracking engine tries them. -/
def gStarStates (op cl : Char) : Nat → List Char → List (List Char)
  | 0, cs => [cs]
  | f + 1, cs =>
    match gStep op cl cs with
    | some cs' => gStarStates op cl f cs' ++ [cs]
    | none => [cs]

/-- Remainders after the literal `"tool(?:_code)?"`, in backtracking order
(the greedy optional group tries `_code` first). -/
def keyStates (cs : List Char) : List (List Char) :=
  match dropLit (S "\"tool") cs with
  | none => []
  | some r =>
    (match dropLit (S "_code\"") r with
     | some r2 => [r2]
     | none => []) ++
    (match dropLit (S "\"") r with
     | some r2 => [r2]
     | none => [])

/-- Match of the embedded pattern
`\{(?:[^{}]|\{[^{}]*\})*"tool(?:_code)?"(?:[^{}]|\{[^{}]*\})*\}` anchored at
the head of `cs`, returning the remainder after the match the backtracking
engine settles on. -/
def embMatchAt (op cl : Char) (cs : List Char) : Option (List Char) :=
  match cs with
  | [] => none
  | c :: rest =>
    if c = op then
      (gStarStates op cl rest.length rest).findSome? (fun s1 =>
        (keyStates s1).findSome? (fun s2 =>
          (gStarStates op cl s2.length s2).findSome? (fun s3 =>
            match s3 with
            | c2 :: r => if c2 = cl then some r else none
            | [] => none)))
    else none

/-- `re.findall` for the embedded pattern: scan left to right, collect
non-overlapping matches. -/
def embFindAll (op cl : Char) : Nat → List Char → List (List Char)
  | 0, _ => []
  | _, [] => []
  | f + 1, cs =>
    match embMatchAt op cl cs with
    | some suffix => cs.take (cs.length - suffix.length) :: embFindAll op cl f suffix
    | none => embFindAll op cl f (cs.drop 1)

/-- Lazy `(.*?)\)` with `.` not matching newline: the argument text up to the
first `)` on the same logical stretch, failing on an intervening newline. -/
def lazyArgsTo : List Char → Option (List Char × List Char)
  | [] => none
  | c :: rest =>
    if c = ')' then some ([], rest)
    else if c = '\n' then none
    else (lazyArgsTo rest).map (fun (a, r) => (c :: a, r))

/-- Match of `LIT\w+\((.*?)\)` anchored at the head of `cs`: the word-run after
the literal and the argument text. -/
def callMatchAt (lit : List Char) (cs : List Char) : Option (List Char × List Char) :=
  match dropLit lit cs with
  | none => none
  | some r =>
    let w := r.takeWhile isWordChar
    if w.isEmpty then none
    else
      match r.drop w.length with
      | '(' :: r2 => (lazyArgsTo r2).map (fun (a, _) => (w, a))
      | _ => none

/-- `re.search` for the call-syntax patterns: earliest start position wins. -/
def reSearchCall (lit : List Char) : List Char → Option (List Char × List Char)
  | [] => none
  | c :: rest =>
    match callMatchAt lit (c :: rest) with
    | some m => some m
    | none => reSearchCall lit rest

/-- Match of the `tool_code` argument pattern `(\w+)=['"]([^'"]+)['"]` anchored
at the head (the opening and closing quote need not agree — each is the
one-character class `['"]`). -/
def qArgMatchAt (cs : List Char) : Option ((List Char × List Char) × List Char) :=
  let w := cs.takeWhile isWordChar
  if w.isEmpty then none
  else
    match cs.drop w.length with
    | '=' :: q :: r2 =>
      if q = '"' ∨ q = '\x27' then
        let v := r2.takeWhile (fun c => !(c == '"' || c == '\x27'))
        if v.isEmpty then none
        else
          match r2.drop v.length with
          | q2 :: rest =>
            if q2 = '"' ∨ q2 = '\x27' then some ((w, v), rest) else none
          | [] => none
      else none
    | _ => none

/-- `re.findall` over the `tool_code` argument pattern. -/
def qArgsFindAll : Nat → List Char → List (List Char × List Char)
  | 0, _ => []
  | _, [] => []
  | f + 1, cs =>
    match qArgMatchAt cs with
    | some (p, rest) => p :: qArgsFindAll f rest
    | none => qArgsFindAll f (cs.drop 1)

/-- Match of the plain-text argument pattern `(\w+)=(["']?)([^,'"]+)\2` anchored
at the head.  The optional quote group is greedy and back-referenced, so a
quoted value must close with the same quote; an unquoted value cannot begin
with a quote.  The Bool records whether the value was quoted. -/
def pArgMatchAt (cs : List Char) : Option ((List Char × List Char × Bool) × List Char) :=
  let w := cs.takeWhile isWordChar
  if w.isEmpty then none
  else
    match cs.drop w.length with
    | '=' :: r2 =>
      match r2 with
      | [] => none
      | q :: r3 =>
        if q = '"' ∨ q = '\x27' then
          let v := r3.takeWhile (fun c => !(c == ',' || c == '"' || c == '\x27'))
          if v.isEmpty then none
          else
            match r3.drop v.length with
            | q2 :: rest => if q2 = q then some ((w, v, true), rest) else none
            | [] => none
        else
          let v := r2.takeWhile (fun c => !(c == ',' || c == '"' || c == '\x27'))
          if v.isEmpty then none
          else some ((w, v, false), r2.drop v.length)
    | _ => none

/-- `re.findall` over the plain-text argument pattern. -/
def pArgsFindAll : Nat → List Char → List (List Char × List Char × Bool)
  | 0, _ => []
  | _, [] => []
  | f + 1, cs =>
    match pArgMatchAt cs with
    | some (p, rest) => p :: pArgsFindAll f rest
    | none => pArgsFindAll f (cs.drop 1)

/-- Python `str.isdigit` (ASCII). -/
def allDigits (cs : List Char) : Bool := !cs.isEmpty && cs.all Char.isDigit

/-- Build the `arguments` dict of the `tool_code` extraction path. -/
def qArgsDict (a : List Char) : List (List Char × PyVal) :=
  (qArgsFindAll a.length a).foldl (fun acc (kv : List Char × List Char) =>
    kvSet acc kv.1 (pstr kv.2)) []

/-- Build the `arguments` dict of the plain-text extraction path: unquoted
all-digit values coerce to integers. -/
def pArgsDict (a : List Char) : List (List Char × PyVal) :=
  (pArgsFindAll a.length a).foldl (fun acc (kv : List Char × List Char × Bool) =>
    kvSet acc kv.1
      (if !kv.2.2 && allDigits kv.2.1 then pint (digitsToNat kv.2.1 : Int)
       else pstr kv.2.1)) []

/-- The `{"tool": …, "arguments": …}` dict the extraction paths construct. -/
def mkCall (name : List Char) (args : List (List Char × PyVal)) : PyVal :=
  pdict [(S "tool", pstr name), (S "arguments", pdict args)]

/-- Model of `GeminiFiddlerClient._process_tool_call_data`: lists collapse to
their first element; a dict with both `tool` and `arguments` keys is returned
as is; otherwise a `tool_code` string is mined for call syntax.  (A non-string
`tool_code` value raises in the source and is outside the model.) -/
def process_tool_call_data (v : PyVal) : Option PyVal :=
  let d0 : Option PyVal :=
    match v with
    | plist [] => none
    | plist (x :: _) => some x
    | other => some other
  match d0 with
  | none => none
  | some d =>
    match d with
    | pdict kvs =>
      if (kvGet kvs (S "tool")).isSome && (kvGet kvs (S "arguments")).isSome then
        some (pdict kvs)
      else
        match kvGet kvs (S "tool_code") with
        | some (pstr code) =>
          (match reSearchCall (S "fiddler_mcp__") code with
           | some (w, a) => some (mkCall (S "fiddler_mcp__" ++ w) (qArgsDict a))
           | none =>
             match reSearchCall (S "fiddler_mcp.") code with
             | some (w, a) => some (mkCall (S "fiddler_mcp__" ++ w) (qArgsDict a))
             | none => none)
        | _ => none
    | _ => none

/-- The loop over `re.findall` matches: `json.loads` each match; on parse
success return `_process_tool_call_data` only when it yields a call, else keep
scanning. -/
def tryMatches (ms : List (List Char)) : Option PyVal :=
  ms.findSome? (fun m =>
    match jsonParse m with
    | some d => process_tool_call_data d
    | none => none)

/-- Model of `GeminiFiddlerClient.parse_gemini_response`: strip, remove one
layer of code-fence lines, try strict `json.loads` (whose outcome is returned
unconditionally when it parses), then the embedded brace and bracket regex
scans, then the plain `fiddler_mcp__name(args)` scan. -/
def parse_gemini_response (cs : List Char) : Option PyVal :=
  let t0 := pyStrip cs
  if t0.isEmpty then none
  else
    let t := if strStartsWith (S "```") t0 then
               pyStrip (joinLines (((splitLines t0).drop 1).dropLast))
             else t0
    match jsonParse t with
    | some d => process_tool_call_data d
    | none =>
      match tryMatches (embFindAll '\x7b' '\x7d' t.length t) with
      | some r => some r
      | none =>
        match tryMatches (embFindAll '[' ']' t.length t) with
        | some r => some r
        | none =>
          match reSearchCall (S "fiddler_mcp__") t with
          | some (w, a) => some (mkCall (S "fiddler_mcp__" ++ w) (pArgsDict a))
          | none => none

example : parse_gemini_response (S "\x7b\"tool\": \"x\", \"arguments\": \x7b\x7d\x7d") =
    some (pdict [(S "tool", pstr (S "x")), (S "arguments", pdict [])]) := rfl

example : parse_gemini_response
    (S "Checking. \x7b\"tool\": \"a\", \"arguments\": \x7b\"limit\": 5\x7d\x7d") =
    some (pdict [(S "tool", pstr (S "a")),
                 (S "arguments", pdict [(S "limit", pint 5)])]) := rfl

example : parse_gemini_response (S "Use fiddler_mcp__live_stats(limit=3) now") =
    some (mkCall (S "fiddler_mcp__live_stats") [(S "limit", pint 3)]) := rfl

example : parse_gemini_response (S "just words") = none := rfl

/-! ## Name Resolver and Tool Invoker (`call_tool` and helpers)

`call_tool` rewrites dotted tool names, applies two alias tables, validates the
name against the discovered catalog, sends one `tools/call` request through the
transport, normalises the reply envelope, and — for `sessions_search` — chains
an automatic body fetch.  The transport is abstracted as an oracle
`McpCallReq → PyVal` from a request to the raw JSON-RPC response; the trace of
issued `tools/call` requests is returned alongside the result.  The client is
modelled with `auto_save_full_bodies = False` (its default), under which
`_save_body_to_file` returns `None` and every `saved_path` branch is skipped. -/

/-- One `tools/call` request: tool name and arguments as sent on the wire. -/
structure McpCallReq where
  name : List Char
  args : PyVal

/-- The `NON_PREFIXED_ALIASES` table of `call_tool`. -/
def NON_PREFIXED_ALIASES : List (List Char × List Char) :=
  [(S "get_sessions", S "fiddler_mcp__live_sessions"),
   (S "live_sessions", S "fiddler_mcp__live_sessions"),
   (S "list_sessions", S "fiddler_mcp__live_sessions"),
   (S "session_body", S "fiddler_mcp__session_body"),
   (S "get_body", S "fiddler_mcp__session_body"),
   (S "session_headers", S "fiddler_mcp__session_headers"),
   (S "get_headers", S "fiddler_mcp__session_headers"),
   (S "compare_sessions", S "fiddler_mcp__compare_sessions"),
   (S "sessions_search", S "fiddler_mcp__sessions_search"),
   (S "search_sessions", S "fiddler_mcp__sessions_search"),
   (S "live_stats", S "fiddler_mcp__live_stats"),
   (S "get_stats", S "fiddler_mcp__live_stats"),
   (S "sessions_timeline", S "fiddler_mcp__sessions_timeline"),
   (S "sessions_clear", S "fiddler_mcp__sessions_clear")]

/-- The `TOOL_ALIASES` table of `call_tool`. -/
def TOOL_ALIASES : List (List Char × List Char) :=
  [(S "fiddler_mcp__session_details", S "fiddler_mcp__session_body"),
   (S "fiddler_mcp__sessions_details", S "fiddler_mcp__session_body"),
   (S "fiddler_mcp__get_session", S "fiddler_mcp__session_body"),
   (S "fiddler_mcp__get_body", S "fiddler_mcp__session_body"),
   (S "fiddler_mcp__body", S "fiddler_mcp__session_body"),
   (S "fiddler_mcp__list_sessions", S "fiddler_mcp__live_sessions"),
   (S "fiddler_mcp__sessions_list", S "fiddler_mcp__live_sessions"),
   (S "fiddler_mcp__get_sessions", S "fiddler_mcp__live_sessions"),
   (S "fiddler_mcp__sessions", S "fiddler_mcp__live_sessions"),
   (S "fiddler_mcp__get_headers", S "fiddler_mcp__session_headers"),
   (S "fiddler_mcp__headers", S "fiddler_mcp__session_headers"),
   (S "fiddler_mcp__stats", S "fiddler_mcp__live_stats"),
   (S "fiddler_mcp__get_stats", S "fiddler_mcp__live_stats"),
   (S "fiddler_mcp__search", S "fiddler_mcp__sessions_search"),
   (S "fiddler_mcp__search_sessions", S "fiddler_mcp__sessions_search"),
   (S "fiddler_mcp__compare", S "fiddler_mcp__compare_sessions"),
   (S "fiddler_mcp__clear", S "fiddler_mcp__sessions_clear"),
   (S "fiddler_mcp__timeline", S "fiddler_mcp__sessions_timeline")]

/-- Applying an alias table: `if name in TABLE: name = TABLE[name]`. -/
def aliasApply (table : List (List Char × List Char)) (n : List Char) : List Char :=
  match table.lookup n with
  | some c => c
  | none => n

/-- Split on `.` as Python `str.split(".")`. -/
def splitDots : List Char → List (List Char)
  | [] => [[]]
  | c :: rest =>
    if c = '.' then [] :: splitDots rest
    else
      match splitDots rest with
      | [] => [[c]]
      | l :: ls => (c :: l) :: ls

/-- Dotted-notation repair of `call_tool`: `ns.suffix` with exactly one dot and
no canonical `fiddler_mcp__` start is rewritten to `fiddler_mcp__suffix`. -/
def dotNotationFix (n : List Char) : List Char :=
  if n.contains '.' && !(strStartsWith (S "fiddler_mcp__") n) then
    match splitDots n with
    | [_, suf] => S "fiddler_mcp__" ++ suf
    | _ => n
  else n

/-- The full name-rewriting pipeline of `call_tool`, in source order: dotted
repair, then `NON_PREFIXED_ALIASES`, then `TOOL_ALIASES`.  Note the catalog is
consulted only afterwards. -/
def resolve_tool_name (n : List Char) : List Char :=
  aliasApply TOOL_ALIASES (aliasApply NON_PREFIXED_ALIASES (dotNotationFix n))

/-- The `valid_tools` list of `call_tool`: names of catalog entries whose
`name` value is a truthy string.  (A non-string truthy `name` would enter the
Python list but can never equal a candidate string; it is outside the model.) -/
def valid_tool_names (available_tools : List PyVal) : List (List Char) :=
  available_tools.filterMap (fun t =>
    match pyGet t (S "name") with
    | some (pstr s) => if s.isEmpty then none else some s
    | _ => none)

/-- Join with a separator, mirroring `sep.join(strings)`. -/
def joinSep (sep : List Char) : List (List Char) → List Char
  | [] => []
  | [x] => x
  | x :: rest => x ++ sep ++ joinSep sep rest

/-- The error payload `call_tool` returns for an unresolvable name, without
contacting the server. -/
def unknown_tool_payload (name : List Char) (valid : List (List Char)) : PyVal :=
  let tool_list := if valid.isEmpty then S "No tools available" else joinSep (S "\n- ") valid
  pdict [(S "error", pstr (S "Unknown tool: \x27" ++ name ++ S "\x27")),
         (S "message",
          pstr (S "This tool does not exist. Use ONLY these exact tool names:\n- " ++ tool_list)),
         (S "hint",
          pstr (S "Check the tool name spelling and try again with one from the list above.")),
         (S "available_tools", plist (valid.map pstr))]

/-- Whether a `type` field equals the string `"text"`. -/
def typeIsText (t : PyVal) : Bool :=
  match t with
  | pstr s => s = S "text"
  | _ => false

/-- Model of `GeminiFiddlerClient._parse_tool_response`: unwrap the first dict
content item (parsing embedded JSON text), else pass through results that
already carry top-level keys, else unwrap a `response.data` envelope. -/
def parse_tool_response (response : PyVal) : PyVal :=
  match pyGet response (S "result") with
  | none => pdict [(S "error", pyGetDef response (S "error") (pstr (S "Tool call failed")))]
  | some result =>
    match result with
    | pdict kvs =>
      let fromContent : Option PyVal :=
        match kvGet kvs (S "content") with
        | some (plist items) =>
          if items.isEmpty then none
          else
            items.findSome? (fun item =>
              match item with
              | pdict ikvs =>
                some (
                  match kvGet ikvs (S "type"), kvGet ikvs (S "text") with
                  | some t, some td =>
                    if typeIsText t then
                      match td with
                      | pstr tds =>
                        let st := pyStrip tds
                        if st.head? = some '\x7b' ∨ st.head? = some '[' then
                          match jsonParse tds with
                          | some parsed => parsed
                          | none => pdict [(S "text", pstr tds)]
                        else pdict [(S "text", pstr tds)]
                      | other => pdict [(S "text", other)]
                    else pdict ikvs
                  | _, _ => pdict ikvs)
              | _ => none)
        | _ => none
      match fromContent with
      | some r => r
      | none =>
        if (kvGet kvs (S "success")).isSome || (kvGet kvs (S "error")).isSome ||
           (kvGet kvs (S "sessions")).isSome || (kvGet kvs (S "bridge_status")).isSome then
          pdict kvs
        else
          match kvGet kvs (S "response") with
          | some (pdict ekvs) =>
            (match kvGet ekvs (S "data") with
             | some pnull => pdict ekvs
             | some (pdict dkvs) => pdict dkvs
             | some d => pdict [(S "data", d)]
             | none => pdict ekvs)
          | _ => pdict kvs
    | other => pdict [(S "result", other)]

/-- `body_data.get("response_truncated") or body_data.get("truncated")`. -/
def truncFlag (body : PyVal) : PyVal :=
  let a := pyGetN body (S "response_truncated")
  if pyTruthy a then a else pyGetN body (S "truncated")

/-- `body_data.get("success") is False` (Python identity check: only the
literal `False` triggers the failure branch; an absent key does not). -/
def successIsFalse (b : PyVal) : Bool :=
  match pyGet b (S "success") with
  | some (pbool false) => true
  | _ => false

/-- Integer reading of a metadata value; Python treats `bool` as `int`.  Other
types would raise on comparison in the source and are outside the model. -/
def pyIntOf : PyVal → Int
  | pint n => n
  | pbool b => if b then 1 else 0
  | _ => 0

/-- Insert thousands separators into a reversed digit list. -/
def insertCommas : List Char → List Char
  | a :: b :: c :: d :: rest => a :: b :: c :: ',' :: insertCommas (d :: rest)
  | l => l

/-- Python `f"{n:,}"` for an integer. -/
def commify (n : Int) : List Char :=
  let ds := (insertCommas (natDigits n.natAbs).reverse).reverse
  if n < 0 then '-' :: ds else ds

/-- The string content of a value, for fields the source feeds to
`"\n".join` (non-strings would raise there and are outside the model). -/
def pStrOf : PyVal → List Char
  | pstr s => s
  | _ => []

/-- Model of `GeminiFiddlerClient._format_smart_extraction`: header with comma
formatted sizes, `head` / `suspicious_patterns` / `tail` sections between
`=` rules, and an extraction summary, joined by newlines. -/
def format_smart_extraction (extraction : PyVal) : List Char :=
  match extraction with
  | pdict ekvs =>
    if ekvs.isEmpty then []
    else
      let metadata := pyGetDef (pdict ekvs) (S "metadata") (pdict [])
      let original_size := pyIntOf (pyGetDef metadata (S "original_size") (pint 0))
      let patterns_found :=
        match pyGet metadata (S "patterns_found") with
        | some (plist xs) => xs
        | _ => []
      let eq60 := List.replicate 60 '='
      let parts1 : List (List Char) :=
        if 0 < original_size then
          [S "[INTELLIGENT EXTRACTION from " ++ commify original_size ++ S " byte file]"]
          ++ (if !patterns_found.isEmpty then
                [S "[Suspicious patterns detected: "
                 ++ joinSep (S ", ") ((patterns_found.take 10).map pStrOf) ++ S "]"]
              else [])
          ++ [[]]
        else []
      let headV := pyGetDef (pdict ekvs) (S "head") (pstr [])
      let parts2 : List (List Char) :=
        if pyTruthy headV then
          [eq60, S "=== FILE START (first 8KB) ===", eq60, pStrOf headV]
        else []
      let suspV := pyGetDef (pdict ekvs) (S "suspicious_patterns") (pstr [])
      let parts3 : List (List Char) :=
        if pyTruthy suspV then
          [[], eq60, S "=== DETECTED SUSPICIOUS PATTERNS (from middle section) ===", eq60,
           pStrOf suspV]
        else []
      let tailV := pyGetDef (pdict ekvs) (S "tail") (pstr [])
      let parts4 : List (List Char) :=
        if pyTruthy tailV then
          [[], eq60, S "=== FILE END (last 4KB) ===", eq60, pStrOf tailV]
        else []
      let parts5 : List (List Char) :=
        if pyTruthy metadata then
          let total_extracted := pyIntOf (pyGetDef metadata (S "total_extracted") (pint 0))
          let patterns_count := pyIntOf (pyGetDef metadata (S "patterns_count") (pint 0))
          [[], List.replicate 40 '-',
           S "[Extraction summary: " ++ commify total_extracted
           ++ S " bytes extracted from " ++ commify original_size ++ S " bytes original]"]
          ++ (if 0 < patterns_count then
                [S "[" ++ intStr patterns_count ++ S " suspicious code patterns identified]"]
              else [])
        else []
      joinLines (parts1 ++ parts2 ++ parts3 ++ parts4 ++ parts5)
  | _ => []

/-- Python `needle in hay` on strings: substring test. -/
def substrOf (needle : List Char) : List Char → Bool
  | [] => needle.isEmpty
  | c :: rest => strStartsWith needle (c :: rest) || substrOf needle rest

/-- The post-fetch processing of `_auto_fetch_session_body` (source lines
after the truncation follow-up): smart-extraction formatting or raw preview
clipping, request-body clipping, and the final `auto_note` /
`auto_note_details` defaults.  `body` is the (possibly re-fetched) body dict,
`tflag`/`sizeV` the truncation flag and `content_length` in force after the
follow-up. -/
def auto_fetch_post (body tflag sizeV : PyVal) (session_id : List Char)
    (received_at_iso : PyVal) (has_duplicates : Bool) (dupLen : Nat) : PyVal :=
  let se := pyGetN body (S "smart_extraction")
  let seAvail := pyGetDef body (S "smart_extraction_available") (pbool false)
  let response_text : List Char :=
    match pyGetN body (S "response_body") with
    | pstr s => s
    | _ => []
  let body2 :=
    if pyTruthy seAvail && pyTruthy se then
      let formatted := format_smart_extraction se
      if formatted.isEmpty then body
      else
        let analyzed :=
          if 24000 < formatted.length then
            formatted.take 24000 ++ S "\n\n...[smart extraction shortened for conversation output]"
          else formatted
        let b := pySet body (S "response_body_analyzed") (pstr analyzed)
        let b := pySet b (S "response_body") (pstr analyzed)
        let b := pySet b (S "response_body_preview") (pstr analyzed)
        let b := pySet b (S "analysis_method") (pstr (S "smart_extraction"))
        pySet b (S "auto_note") (pstr (S "Smart extraction applied for enhanced analysis"))
    else if !response_text.isEmpty then
      if 8000 < response_text.length then
        let prev := response_text.take 8000 ++ S "\n\n...[preview shortened for conversation output]"
        pySet (pySet body (S "response_body_preview") (pstr prev)) (S "response_body") (pstr prev)
      else pySet body (S "response_body_preview") (pstr response_text)
    else body
  let request_text : List Char :=
    match pyGetN body2 (S "request_body") with
    | pstr s => s
    | _ => []
  let body3 :=
    if !request_text.isEmpty then
      if 4000 < request_text.length then
        let prev := request_text.take 4000 ++ S "\n\n...[preview shortened for conversation output]"
        pySet (pySet body2 (S "request_body_preview") (pstr prev)) (S "request_body") (pstr prev)
      else pySet body2 (S "request_body_preview") (pstr request_text)
    else body2
  let base_note :=
    (if !pyTruthy tflag then S "Full body retrieved"
     else S "Body preview truncated; saved full payload to disk")
    ++ (if has_duplicates then
          S " [Session " ++ session_id ++ S " at " ++ pyToStr received_at_iso
          ++ S " - " ++ natDigits dupLen ++ S " total with this ID]"
        else [])
  let body4 := pySetdefault body3 (S "auto_note") (pstr base_note)
  match sizeV with
  | pnull => body4
  | v => pySetdefault body4 (S "auto_note_details")
           (pstr (S "Body length reported as " ++ pyToStr v ++ S " bytes"))

/-- `received_at_iso`: `first.get("received_at_iso") or first.get("time")`. -/
def received_iso (first : PyVal) : PyVal :=
  if pyTruthy (pyGetN first (S "received_at_iso")) then pyGetN first (S "received_at_iso")
  else pyGetN first (S "time")

/-- The number of search matches sharing the first match's (stripped) id:
`len([s for s in sessions if str(s.get("id", "")) == session_id])`. -/
def dupCount (sessions : List PyVal) (sid : List Char) : Nat :=
  (sessions.filter (fun s => pyToStr (pyGetDef s (S "id") (pstr [])) = sid)).length

/-- The `_auto_fetch_metadata` disambiguation dict attached to a fetched
body. -/
def auto_fetch_meta (sessions : List PyVal) (first : PyVal) (session_id : List Char) : PyVal :=
  pdict
    [(S "fetched_session_id", pstr session_id),
     (S "fetched_timestamp", received_iso first),
     (S "fetched_received_at", pyGetN first (S "received_at")),
     (S "has_duplicate_ids", pbool (decide (1 < dupCount sessions session_id))),
     (S "note", pstr
       (S "This is session " ++ session_id ++ S " from the search results (first match)"
        ++ (if decide (1 < dupCount sessions session_id) then
              S " - WARNING: " ++ natDigits (dupCount sessions session_id)
              ++ S " sessions share this ID with different timestamps"
            else [])))]

/-- The value passed as the `smart_extract` argument of the truncation
re-fetch: `is_javascript and size_bytes and size_bytes > 50000` evaluated on
the annotated body (`content_type` / `content_length`), with Python `and`
short-circuit semantics returning the falsy operand itself. -/
def smart_extract_arg (body1 : PyVal) : PyVal :=
  let ctV :=
    let v := pyGetDef body1 (S "content_type") (pstr [])
    if pyTruthy v then v else pstr []
  let is_javascript := substrOf (S "javascript") ((pStrOf ctV).map Char.toLower)
  if !is_javascript then pbool false
  else if !pyTruthy (pyGetN body1 (S "content_length")) then pyGetN body1 (S "content_length")
  else pbool (50000 < pyIntOf (pyGetN body1 (S "content_length")))

/-- Model of `GeminiFiddlerClient._auto_fetch_session_body`: fetch the body of
the first search match, annotate it with disambiguation metadata, re-fetch in
full-payload mode when truncated (enabling `smart_extract` for large
JavaScript), then post-process.  Returns the follow-up value (if any) and the
`tools/call` requests issued. -/
def auto_fetch_session_body (server : McpCallReq → PyVal) (search_result : PyVal) :
    Option PyVal × List McpCallReq :=
  let sessions :=
    match pyGet search_result (S "sessions") with
    | some (plist xs) => xs
    | _ => []
  match sessions with
  | [] => (none, [])
  | first :: _ =>
    let session_id := pyStrip (pyToStr (pyGetDef first (S "id") (pstr [])))
    if session_id.isEmpty then (none, [])
    else
      let n := dupCount sessions session_id
      let has_duplicates : Bool := decide (1 < n)
      let req1 : McpCallReq :=
        ⟨S "fiddler_mcp__session_body", pdict [(S "session_id", pstr session_id)]⟩
      let body0 := parse_tool_response (server req1)
      if !isDict body0 then (some body0, [req1])
      else if successIsFalse body0 then
        (some (pySetdefault body0 (S "note")
           (pstr (S "Automatic session body lookup failed or returned no content."))), [req1])
      else
        let body1 := pySet body0 (S "_auto_fetch_metadata")
          (auto_fetch_meta sessions first session_id)
        let tflag1 := truncFlag body1
        let size1 := pyGetN body1 (S "content_length")
        if pyTruthy tflag1 then
          let use_smart_extract : PyVal := smart_extract_arg body1
          let req2 : McpCallReq :=
            ⟨S "fiddler_mcp__session_body",
             pdict [(S "session_id", pstr session_id),
                    (S "include_binary", pbool true),
                    (S "smart_extract", use_smart_extract)]⟩
          let raw := parse_tool_response (server req2)
          if isDict raw && pyTruthy (pyGetN raw (S "success")) then
            (some (auto_fetch_post raw (truncFlag raw)
                     (pyGetDef raw (S "content_length") size1)
                     session_id (received_iso first) has_duplicates n),
             [req1, req2])
          else
            (some (pySetdefault body1 (S "auto_note")
               (pstr (S "Body preview was truncated and full fetch failed; inspect manually via fiddler_mcp__session_body"))),
             [req1, req2])
        else
          (some (auto_fetch_post body1 tflag1 size1 session_id (received_iso first)
                   has_duplicates n),
           [req1])

/-- `result.setdefault("_follow_up", {})["session_body_preview"] = follow_up`. -/
def attach_follow_up (result fu : PyVal) : PyVal :=
  match pyGet result (S "_follow_up") with
  | some (pdict fkv) =>
    pySet result (S "_follow_up") (pdict (kvSet fkv (S "session_body_preview") fu))
  | some _ => result
  | none => pySet result (S "_follow_up") (pdict [(S "session_body_preview", fu)])

/-- Model of `GeminiFiddlerClient.call_tool`: rewrite and validate the tool
name (returning the unknown-tool payload with the full catalog and issuing no
request when validation fails), send `tools/call`, normalise the reply, and
chain the automatic body fetch after a successful `sessions_search`. -/
def call_tool (available_tools : List PyVal) (server : McpCallReq → PyVal)
    (tool_name0 : List Char) (arguments : PyVal) : PyVal × List McpCallReq :=
  let tool_name := resolve_tool_name tool_name0
  let valid := valid_tool_names available_tools
  if valid.contains tool_name then
    let req : McpCallReq := ⟨tool_name, arguments⟩
    let result := parse_tool_response (server req)
    if tool_name == S "fiddler_mcp__sessions_search" && pyTruthy (pyGetN result (S "success")) then
      match auto_fetch_session_body server result with
      | (some fu, tr) =>
        if pyTruthy fu then (attach_follow_up result fu, req :: tr)
        else (result, req :: tr)
      | (none, tr) => (result, req :: tr)
    else (result, [req])
  else (unknown_tool_payload tool_name valid, [])

example : resolve_tool_name (S "live_sessions") = S "fiddler_mcp__live_sessions" := rfl
example : resolve_tool_name (S "fiddler_mcp.session_body") = S "fiddler_mcp__session_body" := rfl
example : resolve_tool_name (S "fiddler_mcp__search") = S "fiddler_mcp__sessions_search" := rfl
example : resolve_tool_name (S "fiddler_mcp__live_stats") = S "fiddler_mcp__live_stats" := rfl

/-! ## Orchestration Loop (`chat`)

`chat` produces the initial Gemini generation (with one temperature-0 retry
when the output is empty or blocked), extracts a tool call, invokes it, asks
for an analysis (no retry: a blocked analysis is replaced by a fixed message),
then loops: while `followup_count < max_followups`, parse the current text,
invoke the requested tool, generate a follow-up (no retry: a blocked follow-up
substitutes a fixed message and returns).  The Gemini model is abstracted as
an oracle `agent : Nat → List Char` giving the text of the n-th
`generate_content` call (blocked/empty output is the empty string); this is
fully general because the real model's output may depend arbitrarily on the
conversation so far.  The run records, chronologically, one Bool per
`generate_content` call — `true` for the single stricter temperature-0 retry
request — together with the number of `call_tool` invocations and every
`tools/call` request issued. -/

/-- Outcome of one `chat` call: final returned text, number of `call_tool`
invocations, the `generate_content` calls made (`true` = temperature-0
retry), and the `tools/call` requests issued. -/
structure ChatOut where
  final : List Char
  toolCalls : Nat
  gens : List Bool
  reqs : List McpCallReq

/-- The fixed replacement text for a blocked first analysis (source line
1644). -/
def analysisBlockedMsg : List Char :=
  S "Analysis blocked by safety filters. This may indicate the content contains potentially harmful code. Try: \x27Analyze session X for malicious patterns\x27 with a fresh request."

/-- The fixed replacement text for a blocked follow-up (source line 1772). -/
def followupBlockedMsg : List Char :=
  S "Follow-up analysis blocked by safety filters. The content may contain malicious code patterns."

/-- The tool name a parsed call dict carries (`tool_call["tool"]`; a
non-string value would raise in `call_tool` and is outside the model). -/
def callName (d : PyVal) : List Char :=
  match pyGet d (S "tool") with
  | some (pstr s) => s
  | _ => []

/-- The `while followup_count < max_followups` loop of `chat`; the fuel is the
number of follow-up turns still allowed. -/
def chatLoop (agent : Nat → List Char) (tools : List PyVal) (server : McpCallReq → PyVal) :
    Nat → Nat → List Char → Nat → List Bool → List McpCallReq → ChatOut
  | 0, _, current, tc, gens, reqs => ⟨current, tc, gens, reqs⟩
  | fuel + 1, g, current, tc, gens, reqs =>
    match parse_gemini_response current with
    | none => ⟨current, tc, gens, reqs⟩
    | some d =>
      let r := (call_tool tools server (callName d) (pyGetN d (S "arguments"))).2
      let nxt := agent g
      if nxt.isEmpty then ⟨followupBlockedMsg, tc + 1, gens ++ [false], reqs ++ r⟩
      else chatLoop agent tools server fuel (g + 1) nxt (tc + 1) (gens ++ [false]) (reqs ++ r)

/-- Model of `GeminiFiddlerClient.chat` for one user query, parameterised by
the agent oracle, the discovered catalog, the transport oracle and
`max_followups` (default 10). -/
def chat (agent : Nat → List Char) (tools : List PyVal) (server : McpCallReq → PyVal)
    (max_followups : Nat) : ChatOut :=
  let t0 := agent 0
  let text := if t0.isEmpty then agent 1 else t0
  let g : Nat := if t0.isEmpty then 2 else 1
  let gens : List Bool := if t0.isEmpty then [false, true] else [false]
  match parse_gemini_response text with
  | none => ⟨text, 0, gens, []⟩
  | some d =>
    let r := (call_tool tools server (callName d) (pyGetN d (S "arguments"))).2
    let a := agent g
    let current := if a.isEmpty then analysisBlockedMsg else a
    chatLoop agent tools server max_followups (g + 1) current 1 (gens ++ [false]) r

/-! ## Startup flow (`start_mcp_server` → `initialize_mcp` → `list_tools`)

`send_mcp_request` never lets an exception escape: transport failures come
back as `{"error": …}` dicts, so the handshake outcome is decided solely by
whether the `initialize` response carries a `result` key.  `initialize_mcp`
prints on failure and returns normally either way (the `raise`/`sys.exit(1)`
handler in `start_mcp_server` only fires for exceptions, which the error
envelope path never produces), after which `main` unconditionally calls
`list_tools` and aborts only when the discovered catalog is empty.  The
method-level transport is abstracted as an oracle from the JSON-RPC method
name to the response. -/

/-- One wire-level message of the startup flow: a request or a one-way
notification, identified by its JSON-RPC method. -/
inductive WireMsg where
  | req (method : List Char)
  | notif (method : List Char)

/-- Model of `GeminiFiddlerClient.initialize_mcp`: send `initialize`; on a
`result` response print the connection banner and send the
`notifications/initialized` notification; otherwise print the failure and
return normally.  Returns whether the handshake succeeded and the messages
sent. -/
def initialize_mcp (server : List Char → PyVal) : Bool × List WireMsg :=
  let response := server (S "initialize")
  if (pyGet response (S "result")).isSome then
    (true, [WireMsg.req (S "initialize"), WireMsg.notif (S "notifications/initialized")])
  else
    (false, [WireMsg.req (S "initialize")])

/-- Model of `GeminiFiddlerClient.list_tools`: send `tools/list`; an `error`
response yields the empty catalog, else the `result.tools` list. -/
def list_tools (server : List Char → PyVal) : List PyVal × List WireMsg :=
  let response := server (S "tools/list")
  let tools :=
    if (pyGet response (S "error")).isSome then []
    else
      match pyGet (pyGetDef response (S "result") (pdict [])) (S "tools") with
      | some (plist ts) => ts
      | _ => []
  (tools, [WireMsg.req (S "tools/list")])

/-- The session startup sequence of `main`: handshake, then tool discovery;
the session proceeds to interactive mode only when the catalog is non-empty.
Returns (handshake ok, proceeds, wire trace). -/
def startup_flow (server : List Char → PyVal) : Bool × Bool × List WireMsg :=
  let (ok, w1) := initialize_mcp server
  let (tools, w2) := list_tools server
  (ok, !tools.isEmpty, w1 ++ w2)

/-! ## Bridge: `clear_sessions` and the `fiddler_mcp__sessions_clear` tool

From `5ire-bridge.py`.  The HTTP layer (`FiddlerBridgeClient.request`) is
abstracted as an oracle from the request to its outcome; the trace records
each `self.request(...)` call. -/

/-- One bridge HTTP request: method, path and JSON payload. -/
structure HttpReq where
  method : List Char
  path : List Char
  payload : PyVal

/-- Outcome of `FiddlerBridgeClient.request`: parsed data, or one of the two
exception classes `clear_sessions` catches. -/
inductive BridgeOutcome where
  | ok (data : PyVal)
  | connErr
  | reqErr (msg : List Char)

/-- Model of `FiddlerBridgeClient.clear_sessions`: without `confirm` return
the refusal payload and contact nothing; with `confirm` POST `/api/clear` and
normalise the outcome.  `now` stands for `datetime.now().isoformat()`. -/
def clear_sessions (bridge : HttpReq → BridgeOutcome) (now : List Char)
    (confirm clear_suspicious : Bool) : PyVal × List HttpReq :=
  if !confirm then
    (pdict [(S "success", pbool false),
            (S "error", pstr (S "Confirmation required to clear sessions")),
            (S "help", pstr (S "Set confirm=true to permanently delete all buffered session data."))],
     [])
  else
    let req : HttpReq :=
      ⟨S "POST", S "/api/clear",
       pdict [(S "confirm", pbool true), (S "clear_suspicious", pbool clear_suspicious)]⟩
    match bridge req with
    | BridgeOutcome.connErr =>
      (pdict [(S "success", pbool false),
              (S "error", pstr (S "Cannot connect to real-time bridge")),
              (S "bridge_status", pstr (S "Disconnected"))], [req])
    | BridgeOutcome.reqErr m =>
      (pdict [(S "success", pbool false),
              (S "error", pstr (S "Clear request failed: " ++ m))], [req])
    | BridgeOutcome.ok data =>
      if !isDict data || !pyTruthy (pyGetDef data (S "success") (pbool true)) then
        (pdict [(S "success", pbool false),
                (S "error",
                 if isDict data then pyGetDef data (S "error") (pstr (S "Clear request failed"))
                 else pstr (S "Unexpected response"))], [req])
      else
        (pdict [(S "success", pbool true),
                (S "message", pyGetDef data (S "message") (pstr (S "Sessions cleared"))),
                (S "cleared_counts",
                 pdict [(S "live_sessions", pyGetDef data (S "sessions_cleared") (pint 0)),
                        (S "suspicious_sessions", pyGetDef data (S "suspicious_cleared") (pint 0))]),
                (S "timestamp", pyGetDef data (S "timestamp") (pstr now))], [req])

/-- Model of the MCP tool `fiddler_mcp__sessions_clear`, whose parameters
default to `confirm = False` and `clear_suspicious = False`. -/
def fiddler_mcp__sessions_clear (bridge : HttpReq → BridgeOutcome) (now : List Char)
    (confirm : Bool := false) (clear_suspicious : Bool := false) : PyVal × List HttpReq :=
  clear_sessions bridge now confirm clear_suspicious

/-! ## Theorems -/

/-- C10: `fiddler_mcp__sessions_clear` with its default `confirm = false`
returns `success = false` with the explanatory error and help text and issues
no HTTP request to the bridge (so the buffered state is untouched); the
`POST /api/clear` request is sent exactly when `confirm = true`. -/
theorem sessions_clear_confirm_gate (bridge : HttpReq → BridgeOutcome) (now : List Char)
    (cs confirm : Bool) :
    pyGet (fiddler_mcp__sessions_clear bridge now false cs).1 (S "success") = some (pbool false) ∧
    pyGet (fiddler_mcp__sessions_clear bridge now false cs).1 (S "error") =
      some (pstr (S "Confirmation required to clear sessions")) ∧
    pyGet (fiddler_mcp__sessions_clear bridge now false cs).1 (S "help") =
      some (pstr (S "Set confirm=true to permanently delete all buffered session data.")) ∧
    (fiddler_mcp__sessions_clear bridge now false cs).2 = [] ∧
    (fiddler_mcp__sessions_clear bridge now confirm cs).2 =
      (if confirm then
        [⟨S "POST", S "/api/clear",
          pdict [(S "confirm", pbool true), (S "clear_suspicious", pbool cs)]⟩]
       else []) := by
  refine ⟨rfl, rfl, rfl, rfl, ?_⟩
  cases confirm with
  | false => rfl
  | true =>
    cases hb : bridge ⟨S "POST", S "/api/clear",
        pdict [(S "confirm", pbool true), (S "clear_suspicious", pbool cs)]⟩ with
    | ok data =>
      simp [fiddler_mcp__sessions_clear, clear_sessions, hb]
      split <;> rfl
    | connErr => simp [fiddler_mcp__sessions_clear, clear_sessions, hb]
    | reqErr m => simp [fiddler_mcp__sessions_clear, clear_sessions, hb]

/-- C6: when the candidate name, after dotted-notation repair, is a key of
neither alias table and absent from the discovered catalog, `call_tool` fails
without issuing any `tools/call` request and the failure payload's
`available_tools` list is exactly the catalog's (truthy) tool names. -/
theorem call_tool_unknown_tool (tools : List PyVal) (server : McpCallReq → PyVal)
    (name : List Char) (args : PyVal)
    (h1 : NON_PREFIXED_ALIASES.lookup (dotNotationFix name) = none)
    (h2 : TOOL_ALIASES.lookup (dotNotationFix name) = none)
    (h3 : (valid_tool_names tools).contains (dotNotationFix name) = false) :
    (call_tool tools server name args).2 = [] ∧
    pyGet (call_tool tools server name args).1 (S "available_tools") =
      some (plist ((valid_tool_names tools).map pstr)) := by
  have hres : resolve_tool_name name = dotNotationFix name := by
    unfold resolve_tool_name aliasApply
    rw [h1, h2]
  simp only [call_tool, hres, h3]
  exact ⟨rfl, rfl⟩

/-- Witness for C6 at a concrete hallucinated name and one-tool catalog. -/
theorem call_tool_unknown_tool_witness :
    NON_PREFIXED_ALIASES.lookup (dotNotationFix (S "fiddler_mcp__explode")) = none ∧
    TOOL_ALIASES.lookup (dotNotationFix (S "fiddler_mcp__explode")) = none ∧
    (valid_tool_names [pdict [(S "name", pstr (S "fiddler_mcp__live_stats"))]]).contains
      (dotNotationFix (S "fiddler_mcp__explode")) = false ∧
    (call_tool [pdict [(S "name", pstr (S "fiddler_mcp__live_stats"))]]
        (fun _ => pdict []) (S "fiddler_mcp__explode") (pdict [])).2 = [] ∧
    pyGet (call_tool [pdict [(S "name", pstr (S "fiddler_mcp__live_stats"))]]
        (fun _ => pdict []) (S "fiddler_mcp__explode") (pdict [])).1 (S "available_tools") =
      some (plist [pstr (S "fiddler_mcp__live_stats")]) :=
  ⟨rfl, rfl, rfl,
   (call_tool_unknown_tool [pdict [(S "name", pstr (S "fiddler_mcp__live_stats"))]]
      (fun _ => pdict []) (S "fiddler_mcp__explode") (pdict []) rfl rfl rfl).1,
   (call_tool_unknown_tool [pdict [(S "name", pstr (S "fiddler_mcp__live_stats"))]]
      (fun _ => pdict []) (S "fiddler_mcp__explode") (pdict []) rfl rfl rfl).2⟩

/-- C5 counterexample: the claim quantifies over every catalog, but `call_tool`
rewrites through the alias tables before ever consulting the catalog — there is
no exact-match-first step.  With the catalog `["session_body"]` the candidate
`"session_body"` is present in the catalog yet resolution rewrites it to
`"fiddler_mcp__session_body"`, which then fails validation, so resolution is
not idempotent on catalog names in general. -/
theorem resolve_catalog_name_idempotent_cex :
    resolve_tool_name (S "session_body") = S "fiddler_mcp__session_body" ∧
    (S "session_body") ∈ valid_tool_names [pdict [(S "name", pstr (S "session_body"))]] ∧
    (call_tool [pdict [(S "name", pstr (S "session_body"))]] (fun _ => pdict [])
        (S "session_body") (pdict [])).2 = [] ∧
    pyGet (call_tool [pdict [(S "name", pstr (S "session_body"))]] (fun _ => pdict [])
        (S "session_body") (pdict [])).1 (S "error") =
      some (pstr (S "Unknown tool: \x27fiddler_mcp__session_body\x27")) := by
  refine ⟨rfl, ?_, rfl, rfl⟩
  decide

/-- C5 amended: alias rewriting and dotted-notation repair are applied before
the catalog check, so resolution is idempotent exactly for catalog names that
are not alias-table keys and not dotted — in particular for every canonical
`fiddler_mcp__…` name this server exposes.  Such a name passes through
unchanged and `call_tool` issues its `tools/call` request under that very
name. -/
theorem resolve_catalog_name_unchanged (tools : List PyVal) (server : McpCallReq → PyVal)
    (name : List Char) (args : PyVal)
    (hdot : name.contains '.' = false ∨ strStartsWith (S "fiddler_mcp__") name = true)
    (h1 : NON_PREFIXED_ALIASES.lookup name = none)
    (h2 : TOOL_ALIASES.lookup name = none)
    (h3 : (valid_tool_names tools).contains name = true) :
    resolve_tool_name name = name ∧
    (call_tool tools server name args).2.head? = some ⟨name, args⟩ := by
  have hcond : (name.contains '.' && !(strStartsWith (S "fiddler_mcp__") name)) = false := by
    rcases hdot with h | h
    · rw [h]; exact Bool.false_and _
    · rw [h]; simp
  have hfix : dotNotationFix name = name := by
    unfold dotNotationFix
    rw [hcond]
    rfl
  have hres : resolve_tool_name name = name := by
    unfold resolve_tool_name aliasApply
    rw [hfix, h1, h2]
  refine ⟨hres, ?_⟩
  simp only [call_tool, hres, h3, if_true]
  split
  · rcases haf : auto_fetch_session_body server
        (parse_tool_response (server ⟨name, args⟩)) with ⟨fu, tr⟩
    cases fu with
    | some v =>
      dsimp only
      split <;> rfl
    | none => rfl
  · rfl

/-- Witness for C5's amended statement at a canonical name. -/
theorem resolve_catalog_name_unchanged_witness :
    resolve_tool_name (S "fiddler_mcp__live_stats") = S "fiddler_mcp__live_stats" ∧
    (call_tool [pdict [(S "name", pstr (S "fiddler_mcp__live_stats"))]]
        (fun _ => pdict [(S "result", pdict [(S "success", pbool true)])])
        (S "fiddler_mcp__live_stats") (pdict [])).2.head? =
      some ⟨S "fiddler_mcp__live_stats", pdict []⟩ :=
  resolve_catalog_name_unchanged [pdict [(S "name", pstr (S "fiddler_mcp__live_stats"))]]
    (fun _ => pdict [(S "result", pdict [(S "success", pbool true)])])
    (S "fiddler_mcp__live_stats") (pdict []) (Or.inl rfl) rfl rfl rfl

/-- A transport oracle on which the `initialize` request comes back as an
error envelope while `tools/list` succeeds with one tool. -/
def c2server : List Char → PyVal := fun m =>
  if m = S "initialize" then pdict [(S "error", pdict [(S "message", pstr (S "boom"))])]
  else pdict [(S "result",
    pdict [(S "tools", plist [pdict [(S "name", pstr (S "fiddler_mcp__live_stats"))]])])]

/-- C2 counterexample: on a failed handshake (`initialize` answered by an
error envelope) `initialize_mcp` merely prints and returns normally, and the
startup flow still issues a `tools/list` request on the same session and
proceeds to interactive mode — refuting the claim that handshake failure is
fatal and that no `tools/list` request is ever issued afterwards. -/
theorem initialize_mcp_failure_not_fatal_cex :
    (initialize_mcp c2server).1 = false ∧
    (startup_flow c2server).2.2 =
      [WireMsg.req (S "initialize"), WireMsg.req (S "tools/list")] ∧
    (startup_flow c2server).2.1 = true :=
  ⟨rfl, rfl, rfl⟩

/-- C2 amended: a failed capability handshake (error envelope or transport
error, both of which surface as a response without a `result` key) is reported
to the operator but is not fatal by itself: `initialize_mcp` returns normally,
skips the `initialized` notification, and the session still issues `tools/list`
afterwards; only an empty discovered catalog then aborts the session. -/
theorem initialize_mcp_failure_not_fatal (server : List Char → PyVal)
    (hfail : pyGet (server (S "initialize")) (S "result") = none) :
    (initialize_mcp server).1 = false ∧
    (startup_flow server).2.2 =
      [WireMsg.req (S "initialize"), WireMsg.req (S "tools/list")] := by
  constructor
  · simp [initialize_mcp, hfail]
  · simp [startup_flow, initialize_mcp, list_tools, hfail]

/-- Witness for C2's amended statement on the concrete failing oracle. -/
theorem initialize_mcp_failure_not_fatal_witness :
    (initialize_mcp c2server).1 = false ∧
    (startup_flow c2server).2.2 =
      [WireMsg.req (S "initialize"), WireMsg.req (S "tools/list")] :=
  initialize_mcp_failure_not_fatal c2server rfl

set_option maxRecDepth 20000

/-- A Gemini response text that requests one tool call in the strict JSON
format. -/
def toolCallText : List Char :=
  S "\x7b\"tool\": \"fiddler_mcp__live_stats\", \"arguments\": \x7b\x7d\x7d"

/-- A one-tool catalog as discovered from the bridge. -/
def sampleTools : List PyVal := [pdict [(S "name", pstr (S "fiddler_mcp__live_stats"))]]

/-- A transport oracle answering every `tools/call` with a plain success
result. -/
def sampleServer : McpCallReq → PyVal :=
  fun _ => pdict [(S "result", pdict [(S "success", pbool true)])]

/-- C1: with the default ceiling `max_followups = 10` and an agent that
requests a tool call in every response (so at least 11 consecutive requests),
`chat` performs 11 tool invocations — the initial one plus ten follow-ups —
issuing 11 `tools/call` requests, before returning the last agent text
verbatim.  This contradicts the claim (and the source's own comment
`# Maximum tool calls per query` on `max_followups` and its console message
"Model can make up to 10 tool calls") that at most 10 invocations happen and
no 11th is performed: only the follow-up counter is bounded, the initial
invocation is never counted against the ceiling. -/
theorem chat_performs_eleven_tool_calls :
    (chat (fun _ => toolCallText) sampleTools sampleServer 10).toolCalls = 11 ∧
    (chat (fun _ => toolCallText) sampleTools sampleServer 10).reqs.length = 11 ∧
    (chat (fun _ => toolCallText) sampleTools sampleServer 10).final = toolCallText :=
  ⟨rfl, rfl, rfl⟩

/-- The fixed blocked-analysis message contains no tool call. -/
lemma parse_analysisBlockedMsg : parse_gemini_response analysisBlockedMsg = none := rfl

/-- An agent whose initial response requests a tool call and whose analysis
response is empty (blocked). -/
def c9agent : Nat → List Char := fun n => if n = 0 then toolCallText else []

/-- C9 counterexample: when the analysis turn after the first tool call comes
back empty/blocked, `chat` makes no stricter temperature-0 retry — exactly two
`generate_content` calls happen (`gens = [false, false]`, no `true` entry) and
the turn is replaced by the fixed explanatory message.  The claim that every
agent-invocation point retries once with temperature 0 would require a third
generation with the retry flag here. -/
theorem chat_blocked_analysis_no_retry_cex :
    (chat c9agent sampleTools sampleServer 10).gens = [false, false] ∧
    (chat c9agent sampleTools sampleServer 10).final = analysisBlockedMsg ∧
    (chat c9agent sampleTools sampleServer 10).toolCalls = 1 :=
  ⟨rfl, rfl, rfl⟩

/-- C9 amended: only the initial generation retries once with the stricter
temperature-0 request (one extra `generate_content` call flagged `true`);
an empty/blocked analysis turn is replaced by the fixed explanatory message
with no retry, and an empty/blocked follow-up turn ends the query with its
fixed message, likewise with no retry. -/
theorem chat_retry_only_initial (agent : Nat → List Char) (tools : List PyVal)
    (server : McpCallReq → PyVal) (mf : Nat) :
    (agent 0 = [] → parse_gemini_response (agent 1) = none →
      chat agent tools server mf = ⟨agent 1, 0, [false, true], []⟩) ∧
    (∀ d, agent 0 ≠ [] → parse_gemini_response (agent 0) = some d → agent 1 = [] →
      (chat agent tools server mf).final = analysisBlockedMsg ∧
      (chat agent tools server mf).gens = [false, false]) ∧
    (∀ d0 d1, agent 0 ≠ [] → parse_gemini_response (agent 0) = some d0 →
      agent 1 ≠ [] → parse_gemini_response (agent 1) = some d1 → agent 2 = [] →
      1 ≤ mf →
      (chat agent tools server mf).final = followupBlockedMsg ∧
      (chat agent tools server mf).gens = [false, false, false]) := by
  refine ⟨?_, ?_, ?_⟩
  · intro h0 hp
    unfold chat
    rw [h0]
    simp only [List.isEmpty_nil, if_true, hp]
  · intro d h0 hp h1
    have h0e : (agent 0).isEmpty = false := by
      cases hh : agent 0 with
      | nil => exact absurd hh h0
      | cons a l => rfl
    unfold chat
    simp only [h0e, Bool.false_eq_true, if_false, hp, h1, List.isEmpty_nil, if_true]
    cases mf with
    | zero => exact ⟨rfl, rfl⟩
    | succ k =>
      unfold chatLoop
      rw [parse_analysisBlockedMsg]
      exact ⟨rfl, rfl⟩
  · intro d0 d1 h0 hp0 h1 hp1 h2 hmf
    have h0e : (agent 0).isEmpty = false := by
      cases hh : agent 0 with
      | nil => exact absurd hh h0
      | cons a l => rfl
    have h1e : (agent 1).isEmpty = false := by
      cases hh : agent 1 with
      | nil => exact absurd hh h1
      | cons a l => rfl
    obtain ⟨k, rfl⟩ : ∃ k, mf = k + 1 := ⟨mf - 1, (Nat.succ_pred_eq_of_pos hmf).symm⟩
    unfold chat
    simp only [h0e, Bool.false_eq_true, if_false, hp0, h1e]
    unfold chatLoop
    simp only [hp1, h2, List.isEmpty_nil, if_true]
    refine ⟨?_, ?_⟩ <;> trivial

/-- An agent whose initial response is blocked and whose retry yields a plain
text answer. -/
def c9agentW : Nat → List Char := fun n => if n = 0 then [] else S "hello"

/-- Witness for C9's amended statement: a blocked initial generation is
retried exactly once with temperature 0 and the retry's plain text is the
final answer. -/
theorem chat_retry_only_initial_witness :
    chat c9agentW sampleTools sampleServer 10 = ⟨S "hello", 0, [false, true], []⟩ :=
  (chat_retry_only_initial c9agentW sampleTools sampleServer 10).1 rfl rfl

/-- C4 counterexample: the embedded-JSON scan regex
`\{(?:[^{}]|\{[^{}]*\})*"tool(?:_code)?"(?:[^{}]|\{[^{}]*\})*\}` matches only
one level of brace nesting, so a tool call embedded in prose whose arguments
mapping itself contains a nested object (nesting depth two) is not located —
the extractor returns no candidate, refuting the claim that matching succeeds
at arbitrary nesting depth. -/
theorem parse_embedded_nested_args_cex :
    parse_gemini_response
      (S "Analysis: \x7b\"tool\": \"fiddler_mcp__session_body\", \"arguments\": \x7b\"filter\": \x7b\"id\": 1\x7d\x7d\x7d done") =
      none := rfl

/-- C4 amended: the embedded-substring matching is single-level, not
arbitrary-depth — an embedded call whose arguments mapping is flat is located
and parsed exactly, while an embedded call whose arguments contain nested
objects yields no candidate. -/
theorem parse_embedded_single_level_only :
    parse_gemini_response
      (S "Next: \x7b\"tool\": \"fiddler_mcp__live_sessions\", \"arguments\": \x7b\"limit\": 20\x7d\x7d Thanks.") =
      some (pdict [(S "tool", pstr (S "fiddler_mcp__live_sessions")),
                   (S "arguments", pdict [(S "limit", pint 20)])]) ∧
    parse_gemini_response
      (S "Run \x7b\"tool\": \"fiddler_mcp__sessions_search\", \"arguments\": \x7b\"query\": \x7b\"host\": \x7b\"name\": \"x\"\x7d\x7d\x7d\x7d now") =
      none :=
  ⟨rfl, rfl⟩

/-- Every character of the list is Python-strip whitespace. -/
def AllSpace (ws : List Char) : Prop := ∀ c ∈ ws, isPySpace c = true

/-- `dropWhile` swallows a fully-satisfying block on the left. -/
lemma dropWhile_append_of_all (p : Char → Bool) (ws cs : List Char)
    (h : ∀ c ∈ ws, p c = true) :
    (ws ++ cs).dropWhile p = cs.dropWhile p := by
  induction ws with
  | nil => rfl
  | cons a l ih =>
    simp only [List.cons_append, List.dropWhile_cons]
    rw [h a (by simp)]
    exact ih (fun c hc => h c (by simp [hc]))

/-- `dropWhile` stops at a failing head. -/
lemma dropWhile_cons_of_neg (p : Char → Bool) (c : Char) (cs : List Char)
    (h : p c = false) : (c :: cs).dropWhile p = c :: cs := by
  simp [List.dropWhile_cons, h]

/-- `str.strip()` removes exactly the surrounding whitespace when the core
starts and ends with non-whitespace. -/
lemma pyStrip_wrap (ws1 core ws2 : List Char) (h1 : AllSpace ws1) (h2 : AllSpace ws2)
    (hh : ∀ c, core.head? = some c → isPySpace c = false)
    (hl : ∀ c, core.getLast? = some c → isPySpace c = false)
    (hne : core ≠ []) :
    pyStrip (ws1 ++ core ++ ws2) = core := by
  obtain ⟨c, rest, rfl⟩ : ∃ c rest, core = c :: rest := by
    cases core with
    | nil => exact absurd rfl hne
    | cons c r => exact ⟨c, r, rfl⟩
  unfold pyStrip
  rw [List.append_assoc, dropWhile_append_of_all _ _ _ h1,
      show ((c :: rest) ++ ws2) = c :: (rest ++ ws2) from rfl,
      dropWhile_cons_of_neg _ _ _ (hh c rfl),
      show (c :: (rest ++ ws2)) = (c :: rest) ++ ws2 from rfl,
      List.reverse_append,
      dropWhile_append_of_all _ _ _ (fun x hx => h2 x (List.mem_reverse.mp hx))]
  have hrev : (c :: rest).reverse.dropWhile isPySpace = (c :: rest).reverse := by
    cases hr : (c :: rest).reverse with
    | nil => simp at hr
    | cons b l =>
      have hb : isPySpace b = false := by
        apply hl
        rw [← List.head?_reverse, hr]
        rfl
      exact dropWhile_cons_of_neg _ _ _ hb
  rw [hrev, List.reverse_reverse]

/-- `splitLines` never returns the empty list. -/
lemma splitLines_ne_nil (cs : List Char) : splitLines cs ≠ [] := by
  cases cs with
  | nil => simp [splitLines]
  | cons c rest =>
    unfold splitLines
    split <;> simp

/-- A newline-free text splits into itself. -/
lemma splitLines_no_nl (r : List Char) (hr : ∀ c ∈ r, c ≠ '\n') :
    splitLines r = [r] := by
  induction r with
  | nil => rfl
  | cons c cr ih =>
    have hc : c ≠ '\n' := hr c (by simp)
    have ih' := ih (fun x hx => hr x (by simp [hx]))
    simp [splitLines, hc, ih']

/-- Splitting after a leading newline-free line. -/
lemma splitLines_prepend_line (l r : List Char) (hl : ∀ c ∈ l, c ≠ '\n') :
    splitLines (l ++ '\n' :: r) = l :: splitLines r := by
  induction l with
  | nil => simp [splitLines]
  | cons c cl ih =>
    have hc : c ≠ '\n' := hl c (by simp)
    have ih' := ih (fun x hx => hl x (by simp [hx]))
    simp only [List.cons_append]
    rw [show splitLines (c :: (cl ++ '\n' :: r)) =
          (c :: (splitLines (cl ++ '\n' :: r)).headI) :: (splitLines (cl ++ '\n' :: r)).tail
        from by simp [splitLines, hc]]
    rw [ih']
    rfl

/-- `headI` of an append with non-empty left part. -/
lemma headI_append_of_ne_nil (A B : List (List Char)) (h : A ≠ []) :
    (A ++ B).headI = A.headI := by
  cases A with
  | nil => exact absurd rfl h
  | cons a l => rfl

/-- `tail` of an append with non-empty left part. -/
lemma tail_append_of_ne_nil (A B : List (List Char)) (h : A ≠ []) :
    (A ++ B).tail = A.tail ++ B := by
  cases A with
  | nil => exact absurd rfl h
  | cons a l => rfl

/-- Splitting before a trailing newline-free line. -/
lemma splitLines_append_last (l r : List Char) (hr : ∀ c ∈ r, c ≠ '\n') :
    splitLines (l ++ '\n' :: r) = splitLines l ++ [r] := by
  induction l with
  | nil =>
    simp only [List.nil_append]
    rw [show splitLines ('\n' :: r) = [] :: splitLines r from by simp [splitLines]]
    rw [splitLines_no_nl r hr]
    rfl
  | cons c cl ih =>
    by_cases hc : c = '\n'
    · subst hc
      simp only [List.cons_append]
      rw [show splitLines ('\n' :: (cl ++ '\n' :: r)) = [] :: splitLines (cl ++ '\n' :: r)
            from by simp [splitLines]]
      rw [ih]
      rw [show splitLines ('\n' :: cl) = [] :: splitLines cl from by simp [splitLines]]
      rfl
    · simp only [List.cons_append]
      rw [show splitLines (c :: (cl ++ '\n' :: r)) =
            (c :: (splitLines (cl ++ '\n' :: r)).headI) :: (splitLines (cl ++ '\n' :: r)).tail
          from by simp [splitLines, hc]]
      rw [ih]
      rw [show splitLines (c :: cl) =
            (c :: (splitLines cl).headI) :: (splitLines cl).tail
          from by simp [splitLines, hc]]
      rw [headI_append_of_ne_nil _ _ (splitLines_ne_nil cl),
          tail_append_of_ne_nil _ _ (splitLines_ne_nil cl)]
      rfl

/-- `"\n".join(text.split("\n")) == text`. -/
lemma joinLines_splitLines (cs : List Char) : joinLines (splitLines cs) = cs := by
  induction cs with
  | nil => rfl
  | cons c r ih =>
    obtain ⟨x, xs, hx⟩ : ∃ x xs, splitLines r = x :: xs := by
      cases h : splitLines r with
      | nil => exact absurd h (splitLines_ne_nil r)
      | cons x xs => exact ⟨x, xs, rfl⟩
    by_cases hc : c = '\n'
    · subst hc
      rw [show splitLines ('\n' :: r) = [] :: splitLines r from by simp [splitLines]]
      rw [hx]
      show [] ++ '\n' :: joinLines (x :: xs) = '\n' :: r
      rw [← hx, ih]
      rfl
    · rw [show splitLines (c :: r) =
            (c :: (splitLines r).headI) :: (splitLines r).tail from by simp [splitLines, hc]]
      rw [hx]
      cases xs with
      | nil =>
        show c :: x = c :: r
        have hxr : joinLines (splitLines r) = x := by rw [hx]; rfl
        rw [ih] at hxr
        rw [hxr]
      | cons y ys =>
        show (c :: x) ++ '\n' :: joinLines (y :: ys) = c :: r
        have hxr : joinLines (splitLines r) = x ++ '\n' :: joinLines (y :: ys) := by
          rw [hx]; rfl
        rw [ih] at hxr
        rw [List.cons_append, ← hxr]

/-- A code-fenced block: ```` ```lang ````, the body, and a closing
```` ``` ```` line. -/
def fenceWrap (lang body : List Char) : List Char :=
  ('`' :: '`' :: '`' :: lang) ++ '\n' :: (body ++ '\n' :: '`' :: '`' :: ['`'])

/-- A dict carrying both `tool` and `arguments` keys is returned as is by
`_process_tool_call_data`. -/
lemma process_tool_call_data_wellformed (kvs : List (List Char × PyVal))
    (tname : List Char) (amap : List (List Char × PyVal))
    (ht : kvGet kvs (S "tool") = some (pstr tname))
    (ha : kvGet kvs (S "arguments") = some (pdict amap)) :
    process_tool_call_data (pdict kvs) = some (pdict kvs) := by
  unfold process_tool_call_data
  dsimp only
  rw [ht, ha]
  rfl

/-- The claim's input space: text that is exactly a well-formed JSON object
(under the `jsonParse` model of `json.loads`), surrounded by optional
whitespace and optionally wrapped in a single layer of code-fence marker
lines.  In the bare form the object text runs from `{` to `}`; in the fenced
form the fence language tag is newline-free and the body parses after
stripping. -/
def IsWrappedJsonObj (text : List Char) (kvs : List (List Char × PyVal)) : Prop :=
  (∃ ws1 core ws2, AllSpace ws1 ∧ AllSpace ws2 ∧ text = ws1 ++ core ++ ws2 ∧
    core.head? = some '\x7b' ∧ core.getLast? = some '\x7d' ∧
    jsonParse core = some (pdict kvs)) ∨
  (∃ ws1 lang body ws2, AllSpace ws1 ∧ AllSpace ws2 ∧ ('\n' ∉ lang) ∧
    text = ws1 ++ fenceWrap lang body ++ ws2 ∧
    jsonParse (pyStrip body) = some (pdict kvs))

/-- C3: for every input text that is exactly a well-formed `{"tool": …,
"arguments": …}` JSON object — possibly surrounded by extra whitespace and/or
wrapped in a single layer of code-fence marker lines — `parse_gemini_response`
returns exactly that candidate dict, with the same tool name and the same
argument mapping. -/
theorem parse_gemini_response_wellformed (text : List Char)
    (kvs : List (List Char × PyVal)) (tname : List Char) (amap : List (List Char × PyVal))
    (hw : IsWrappedJsonObj text kvs)
    (ht : kvGet kvs (S "tool") = some (pstr tname))
    (ha : kvGet kvs (S "arguments") = some (pdict amap)) :
    parse_gemini_response text = some (pdict kvs) := by
  have hproc := process_tool_call_data_wellformed kvs tname amap ht ha
  rcases hw with ⟨ws1, core, ws2, h1, h2, rfl, hh, hl, hj⟩ |
    ⟨ws1, lang, body, ws2, h1, h2, hlang, rfl, hj⟩
  · obtain ⟨rest, rfl⟩ : ∃ rest, core = '\x7b' :: rest := by
      cases core with
      | nil => simp at hh
      | cons c r =>
        simp only [List.head?_cons, Option.some.injEq] at hh
        exact ⟨r, by rw [hh]⟩
    have hstrip : pyStrip (ws1 ++ ('\x7b' :: rest) ++ ws2) = '\x7b' :: rest := by
      apply pyStrip_wrap _ _ _ h1 h2
      · intro c hc
        simp only [List.head?_cons, Option.some.injEq] at hc
        subst hc
        decide
      · intro c hc
        rw [hl] at hc
        injection hc with hc
        subst hc
        decide
      · simp
    have hfence : strStartsWith (S "```") ('\x7b' :: rest) = false := rfl
    unfold parse_gemini_response
    simp only [hstrip, List.isEmpty_cons, Bool.false_eq_true, if_false, hfence, hj]
    exact hproc
  · have hgl : (fenceWrap lang body).getLast? = some '`' := by
      have he : fenceWrap lang body =
          (('`' :: '`' :: '`' :: lang) ++ '\n' :: (body ++ ['\n', '`', '`'])) ++ ['`'] := by
        simp [fenceWrap, List.append_assoc]
      rw [he, List.getLast?_concat]
    have hstrip : pyStrip (ws1 ++ fenceWrap lang body ++ ws2) = fenceWrap lang body := by
      apply pyStrip_wrap _ _ _ h1 h2
      · intro c hc
        have hc' : c = '`' := by
          rw [show fenceWrap lang body =
                '`' :: (('`' :: '`' :: lang) ++ '\n' :: (body ++ '\n' :: '`' :: '`' :: ['`']))
              from rfl] at hc
          simp only [List.head?_cons, Option.some.injEq] at hc
          exact hc.symm
        subst hc'
        decide
      · intro c hc
        rw [hgl] at hc
        injection hc with hc
        subst hc
        decide
      · simp [fenceWrap]
    have hpre : strStartsWith (S "```") (fenceWrap lang body) = true := by
      unfold fenceWrap
      rfl
    have hempty : (fenceWrap lang body).isEmpty = false := by
      unfold fenceWrap
      rfl
    have hsplit : ((splitLines (fenceWrap lang body)).drop 1).dropLast = splitLines body := by
      have hfirst : ∀ c ∈ ('`' :: '`' :: '`' :: lang), c ≠ '\n' := by
        intro c hc
        simp only [List.mem_cons] at hc
        rcases hc with rfl | rfl | rfl | hc
        · decide
        · decide
        · decide
        · intro hcn
          subst hcn
          exact hlang hc
      have hlast3 : ∀ c ∈ ('`' :: '`' :: ['`']), c ≠ '\n' := by decide
      unfold fenceWrap
      rw [splitLines_prepend_line _ _ hfirst, splitLines_append_last _ _ hlast3]
      simp
    unfold parse_gemini_response
    simp only [hstrip, hempty, Bool.false_eq_true, if_false, hpre, if_true, hsplit,
      joinLines_splitLines, hj]
    exact hproc

/-- Witness for C3: a fenced, whitespace-padded tool call is recovered
exactly. -/
theorem parse_gemini_response_wellformed_witness :
    parse_gemini_response
      (S " ```json\n \x7b\"tool\": \"fiddler_mcp__live_stats\", \"arguments\": \x7b\"limit\": 5\x7d\x7d \n``` ") =
      some (pdict [(S "tool", pstr (S "fiddler_mcp__live_stats")),
                   (S "arguments", pdict [(S "limit", pint 5)])]) :=
  parse_gemini_response_wellformed _ _ _ _
    (Or.inr ⟨S " ", S "json",
      S " \x7b\"tool\": \"fiddler_mcp__live_stats\", \"arguments\": \x7b\"limit\": 5\x7d\x7d ",
      S " ", by unfold AllSpace; decide, by unfold AllSpace; decide, by decide, rfl, rfl⟩)
    rfl rfl


/-! ## Automatic session-body chaining (C7, C8)

Dictionary-update lemmas for reasoning about `pySet` / `pySetdefault`
symbolically, followed by branch lemmas for `_auto_fetch_session_body` and
the claim theorems about `call_tool`'s search chaining. -/

/-- Looking up the key just set returns the new value. -/
lemma kvGet_kvSet_self (kvs : List (List Char × PyVal)) (k : List Char) (x : PyVal) :
    kvGet (kvSet kvs k x) k = some x := by
  induction kvs with
  | nil => simp [kvSet, kvGet]
  | cons p rest ih =>
    obtain ⟨k', v'⟩ := p
    unfold kvSet
    by_cases h : k' = k
    · simp [h, kvGet]
    · simp only [h, if_false]
      unfold kvGet
      simp [h, ih]

lemma kvGet_kvSet_ne (kvs : List (List Char × PyVal)) (k k' : List Char) (x : PyVal)
    (h : ¬ k = k') : kvGet (kvSet kvs k x) k' = kvGet kvs k' := by
  induction kvs with
  | nil => simp [kvSet, kvGet, h]
  | cons p rest ih =>
    obtain ⟨k0, v0⟩ := p
    unfold kvSet
    by_cases h0 : k0 = k
    · subst h0
      simp only [if_true]
      unfold kvGet
      simp [h]
    · simp only [h0, if_false]
      unfold kvGet
      by_cases h1 : k0 = k'
      · simp [h1]
      · simp [h1, ih]

/-- Reading back the key just written on a dict value. -/
lemma pyGet_pySet_self (kvs : List (List Char × PyVal)) (k : List Char) (x : PyVal) :
    pyGet (pySet (pdict kvs) k x) k = some x := by
  simp [pySet, pyGet, kvGet_kvSet_self]

lemma pyGet_pySet_ne (v : PyVal) (k k' : List Char) (x : PyVal) (h : ¬ k = k') :
    pyGet (pySet v k x) k' = pyGet v k' := by
  cases v with
  | pdict kvs =>
    show pyGet (pdict (kvSet kvs k x)) k' = pyGet (pdict kvs) k'
    unfold pyGet
    exact kvGet_kvSet_ne _ _ _ _ h
  | pnull => rfl
  | pbool b => rfl
  | pint n => rfl
  | pstr s => rfl
  | plist xs => rfl

lemma pyGet_pySetdefault_ne (v : PyVal) (k k' : List Char) (x : PyVal) (h : ¬ k = k') :
    pyGet (pySetdefault v k x) k' = pyGet v k' := by
  cases v with
  | pdict kvs =>
    show pyGet (if (kvGet kvs k).isSome = true then pdict kvs
                else pdict (kvSet kvs k x)) k' = pyGet (pdict kvs) k'
    split
    · rfl
    · show pyGet (pdict (kvSet kvs k x)) k' = pyGet (pdict kvs) k'
      unfold pyGet
      exact kvGet_kvSet_ne _ _ _ _ h
  | pnull => rfl
  | pbool b => rfl
  | pint n => rfl
  | pstr s => rfl
  | plist xs => rfl

lemma pyGet_pySetdefault_absent (kvs : List (List Char × PyVal)) (k : List Char) (x : PyVal)
    (h : kvGet kvs k = none) :
    pyGet (pySetdefault (pdict kvs) k x) k = some x := by
  simp [pySetdefault, pyGet, h, kvGet_kvSet_self]

lemma attach_follow_up_absent (R fu : PyVal) (hfu0 : pyGet R (S "_follow_up") = none) :
    attach_follow_up R fu = pySet R (S "_follow_up") (pdict [(S "session_body_preview", fu)]) := by
  unfold attach_follow_up
  rw [hfu0]

lemma kvSet_ne_nil (kvs : List (List Char × PyVal)) (k : List Char) (x : PyVal) :
    kvSet kvs k x ≠ [] := by
  cases kvs with
  | nil => simp [kvSet]
  | cons p rest =>
    obtain ⟨k0, v0⟩ := p
    unfold kvSet
    split <;> simp

lemma pyGet_some_dict (v : PyVal) (k : List Char) (x : PyVal) (h : pyGet v k = some x) :
    ∃ kvs, v = pdict kvs := by
  cases v with
  | pdict kvs => exact ⟨kvs, rfl⟩
  | pnull => simp [pyGet] at h
  | pbool b => simp [pyGet] at h
  | pint n => simp [pyGet] at h
  | pstr s => simp [pyGet] at h
  | plist xs => simp [pyGet] at h

lemma truncFlag_pySet_meta (B x : PyVal) :
    truncFlag (pySet B (S "_auto_fetch_metadata") x) = truncFlag B := by
  unfold truncFlag pyGetN pyGetDef
  rw [pyGet_pySet_ne _ _ _ _ (by decide), pyGet_pySet_ne _ _ _ _ (by decide)]

lemma pyGetN_pySet_ne (v : PyVal) (k k' : List Char) (x : PyVal) (h : ¬ k = k') :
    pyGetN (pySet v k x) k' = pyGetN v k' := by
  unfold pyGetN pyGetDef
  rw [pyGet_pySet_ne _ _ _ _ h]

/-- Branch of `_auto_fetch_session_body` in which the fetched body reports
`success is False`: the failure note is attached via `setdefault` and no
second request is issued. -/
lemma auto_fetch_fail (server : McpCallReq → PyVal) (R first : PyVal) (restS : List PyVal)
    (sid : List Char) (bkvs : List (List Char × PyVal))
    (hsess : pyGet R (S "sessions") = some (plist (first :: restS)))
    (hsideq : pyStrip (pyToStr (pyGetDef first (S "id") (pstr []))) = sid)
    (hsid : sid.isEmpty = false)
    (hB : parse_tool_response (server ⟨S "fiddler_mcp__session_body",
            pdict [(S "session_id", pstr sid)]⟩) = pdict bkvs)
    (hf : kvGet bkvs (S "success") = some (pbool false)) :
    auto_fetch_session_body server R =
      (some (pySetdefault (pdict bkvs) (S "note")
         (pstr (S "Automatic session body lookup failed or returned no content."))),
       [⟨S "fiddler_mcp__session_body", pdict [(S "session_id", pstr sid)]⟩]) := by
  have hsf : successIsFalse (pdict bkvs) = true := by
    show (match kvGet bkvs (S "success") with
          | some (pbool false) => true
          | _ => false) = true
    rw [hf]
  unfold auto_fetch_session_body
  rw [hsess]
  dsimp only
  rw [hsideq]
  simp only [hsid, Bool.false_eq_true, if_false, hB, isDict, Bool.not_true, hsf, if_true]

/-- Branch of `_auto_fetch_session_body` in which the fetched body is a
successful dict and not truncated: it is annotated with the disambiguation
metadata and post-processed, with a single request issued. -/
lemma auto_fetch_plain (server : McpCallReq → PyVal) (R first : PyVal) (restS : List PyVal)
    (sid : List Char) (bkvs : List (List Char × PyVal))
    (hsess : pyGet R (S "sessions") = some (plist (first :: restS)))
    (hsideq : pyStrip (pyToStr (pyGetDef first (S "id") (pstr []))) = sid)
    (hsid : sid.isEmpty = false)
    (hB : parse_tool_response (server ⟨S "fiddler_mcp__session_body",
            pdict [(S "session_id", pstr sid)]⟩) = pdict bkvs)
    (hsf : successIsFalse (pdict bkvs) = false)
    (htrB : pyTruthy (truncFlag (pdict bkvs)) = false) :
    auto_fetch_session_body server R =
      (some (auto_fetch_post
          (pySet (pdict bkvs) (S "_auto_fetch_metadata")
            (auto_fetch_meta (first :: restS) first sid))
          (truncFlag (pdict bkvs)) (pyGetN (pdict bkvs) (S "content_length"))
          sid (received_iso first)
          (decide (1 < dupCount (first :: restS) sid)) (dupCount (first :: restS) sid)),
       [⟨S "fiddler_mcp__session_body", pdict [(S "session_id", pstr sid)]⟩]) := by
  unfold auto_fetch_session_body
  rw [hsess]
  dsimp only
  rw [hsideq]
  simp only [hsid, Bool.false_eq_true, if_false, hB, isDict, Bool.not_true, hsf]
  rw [truncFlag_pySet_meta]
  simp only [htrB, Bool.false_eq_true, if_false]
  rw [pyGetN_pySet_ne _ _ _ _ (by decide)]

/-- Whenever the first search match yields a non-empty id, the first request
`_auto_fetch_session_body` issues is the `session_body` call for that id. -/
lemma auto_fetch_trace (server : McpCallReq → PyVal) (R first : PyVal) (restS : List PyVal)
    (sid : List Char)
    (hsess : pyGet R (S "sessions") = some (plist (first :: restS)))
    (hsideq : pyStrip (pyToStr (pyGetDef first (S "id") (pstr []))) = sid)
    (hsid : sid.isEmpty = false) :
    ∃ tr', (auto_fetch_session_body server R).2 =
      ⟨S "fiddler_mcp__session_body", pdict [(S "session_id", pstr sid)]⟩ :: tr' := by
  unfold auto_fetch_session_body
  rw [hsess]
  dsimp only
  rw [hsideq]
  simp only [hsid, Bool.false_eq_true, if_false]
  split
  · exact ⟨_, rfl⟩
  · split
    · exact ⟨_, rfl⟩
    · split
      · split
        · exact ⟨_, rfl⟩
        · exact ⟨_, rfl⟩
      · exact ⟨_, rfl⟩

lemma pyGet_pdict (bkvs : List (List Char × PyVal)) (k : List Char) :
    pyGet (pdict bkvs) k = kvGet bkvs k := rfl

lemma pyGetN_pdict_absent (bkvs : List (List Char × PyVal)) (k : List Char)
    (h : kvGet bkvs k = none) : pyGetN (pdict bkvs) k = pnull := by
  unfold pyGetN pyGetDef
  rw [pyGet_pdict, h]

lemma pyGetDef_pySet_ne (v : PyVal) (k k' : List Char) (x d : PyVal) (h : ¬ k = k') :
    pyGetDef (pySet v k x) k' d = pyGetDef v k' d := by
  unfold pyGetDef
  rw [pyGet_pySet_ne _ _ _ _ h]

lemma pyGetDef_pdict_absent (bkvs : List (List Char × PyVal)) (k : List Char) (d : PyVal)
    (h : kvGet bkvs k = none) : pyGetDef (pdict bkvs) k d = d := by
  unfold pyGetDef
  rw [pyGet_pdict, h]

lemma pyTruthy_pySetdefault_pdict (kvs : List (List Char × PyVal)) (k : List Char) (x : PyVal)
    (h : kvs ≠ []) : pyTruthy (pySetdefault (pdict kvs) k x) = true := by
  show pyTruthy (if (kvGet kvs k).isSome = true then pdict kvs
                 else pdict (kvSet kvs k x)) = true
  split
  · cases kvs with
    | nil => exact absurd rfl h
    | cons p l => rfl
  · cases hk : kvSet kvs k x with
    | nil => exact absurd hk (kvSet_ne_nil kvs k x)
    | cons p l => rfl

lemma auto_fetch_post_plain (bkvs : List (List Char × PyVal)) (M tflag : PyVal)
    (sid : List Char) (iso : PyVal) (hasDup : Bool) (dupLen : Nat)
    (hse : kvGet bkvs (S "smart_extraction") = none)
    (hsa : kvGet bkvs (S "smart_extraction_available") = none)
    (hrb : kvGet bkvs (S "response_body") = none)
    (hqb : kvGet bkvs (S "request_body") = none) :
    auto_fetch_post (pySet (pdict bkvs) (S "_auto_fetch_metadata") M) tflag pnull
        sid iso hasDup dupLen =
      pySetdefault (pySet (pdict bkvs) (S "_auto_fetch_metadata") M) (S "auto_note")
        (pstr ((if !pyTruthy tflag then S "Full body retrieved"
                else S "Body preview truncated; saved full payload to disk")
               ++ (if hasDup then
                     S " [Session " ++ sid ++ S " at " ++ pyToStr iso
                     ++ S " - " ++ natDigits dupLen ++ S " total with this ID]"
                   else []))) := by
  unfold auto_fetch_post
  have h1 : pyGetN (pySet (pdict bkvs) (S "_auto_fetch_metadata") M)
      (S "smart_extraction") = pnull := by
    rw [pyGetN_pySet_ne _ _ _ _ (by decide), pyGetN_pdict_absent _ _ hse]
  have h2 : pyGetDef (pySet (pdict bkvs) (S "_auto_fetch_metadata") M)
      (S "smart_extraction_available") (pbool false) = pbool false := by
    rw [pyGetDef_pySet_ne _ _ _ _ _ (by decide), pyGetDef_pdict_absent _ _ _ hsa]
  have h3 : pyGetN (pySet (pdict bkvs) (S "_auto_fetch_metadata") M)
      (S "response_body") = pnull := by
    rw [pyGetN_pySet_ne _ _ _ _ (by decide), pyGetN_pdict_absent _ _ hrb]
  have h4 : pyGetN (pySet (pdict bkvs) (S "_auto_fetch_metadata") M)
      (S "request_body") = pnull := by
    rw [pyGetN_pySet_ne _ _ _ _ (by decide), pyGetN_pdict_absent _ _ hqb]
  simp only [h1, h2, h3, pyTruthy, Bool.false_and, Bool.false_eq_true, if_false,
    List.isEmpty_nil, Bool.not_true]
  simp only [h4]
  rfl

/-- C7: whenever `fiddler_mcp__sessions_search` returns success with a
non-empty sessions list whose first entry has a non-empty id, `call_tool`
automatically issues a `fiddler_mcp__session_body` request for that id right
after the search request, and merges the outcome into the search result under
`_follow_up.session_body_preview`: on a plain successful fetch the merged
body carries `_auto_fetch_metadata` (with the fetched id and the
duplicate-id flag) and all other body keys unchanged, while a failed fetch
leaves the search result's `success` untouched and attaches the failure as a
`note` on the fetched payload instead. -/
theorem call_tool_search_autofetch (tools : List PyVal) (server : McpCallReq → PyVal)
    (args : PyVal) (R first B : PyVal) (restS : List PyVal) (sid : List Char)
    (hcat : (valid_tool_names tools).contains (S "fiddler_mcp__sessions_search") = true)
    (hR : parse_tool_response (server ⟨S "fiddler_mcp__sessions_search", args⟩) = R)
    (hsucc : pyTruthy (pyGetN R (S "success")) = true)
    (hsess : pyGet R (S "sessions") = some (plist (first :: restS)))
    (hsideq : pyStrip (pyToStr (pyGetDef first (S "id") (pstr []))) = sid)
    (hsid : sid.isEmpty = false)
    (hfu0 : pyGet R (S "_follow_up") = none)
    (hB : parse_tool_response (server ⟨S "fiddler_mcp__session_body",
            pdict [(S "session_id", pstr sid)]⟩) = B) :
    (call_tool tools server (S "fiddler_mcp__sessions_search") args).2.take 2 =
      [⟨S "fiddler_mcp__sessions_search", args⟩,
       ⟨S "fiddler_mcp__session_body", pdict [(S "session_id", pstr sid)]⟩] ∧
    (∀ bkvs, B = pdict bkvs →
      kvGet bkvs (S "success") = some (pbool false) →
      kvGet bkvs (S "note") = none →
      pyGet (call_tool tools server (S "fiddler_mcp__sessions_search") args).1 (S "success") =
        pyGet R (S "success") ∧
      ∃ fuF, pyGet (call_tool tools server (S "fiddler_mcp__sessions_search") args).1
          (S "_follow_up") = some (pdict [(S "session_body_preview", fuF)]) ∧
        pyGet fuF (S "note") =
          some (pstr (S "Automatic session body lookup failed or returned no content.")) ∧
        (∀ k, ¬ k = S "note" → pyGet fuF k = pyGet B k)) ∧
    (∀ bkvs, B = pdict bkvs →
      successIsFalse B = false →
      pyTruthy (truncFlag B) = false →
      kvGet bkvs (S "smart_extraction") = none →
      kvGet bkvs (S "smart_extraction_available") = none →
      kvGet bkvs (S "response_body") = none →
      kvGet bkvs (S "request_body") = none →
      kvGet bkvs (S "content_length") = none →
      ∃ fu, pyGet (call_tool tools server (S "fiddler_mcp__sessions_search") args).1
          (S "_follow_up") = some (pdict [(S "session_body_preview", fu)]) ∧
        pyGet fu (S "_auto_fetch_metadata") =
          some (auto_fetch_meta (first :: restS) first sid) ∧
        pyGet (auto_fetch_meta (first :: restS) first sid) (S "fetched_session_id") =
          some (pstr sid) ∧
        pyGet (auto_fetch_meta (first :: restS) first sid) (S "has_duplicate_ids") =
          some (pbool (decide (1 < dupCount (first :: restS) sid))) ∧
        (∀ k, ¬ k = S "_auto_fetch_metadata" → ¬ k = S "auto_note" →
          pyGet fu k = pyGet B k) ∧
        pyGet (call_tool tools server (S "fiddler_mcp__sessions_search") args).1 (S "success") =
          pyGet R (S "success")) := by
  have hres : resolve_tool_name (S "fiddler_mcp__sessions_search") =
      S "fiddler_mcp__sessions_search" := rfl
  have hbeq : (S "fiddler_mcp__sessions_search" == S "fiddler_mcp__sessions_search") = true := rfl
  obtain ⟨rkvs, hRd⟩ := pyGet_some_dict R _ _ hsess
  refine ⟨?_, ?_, ?_⟩
  · obtain ⟨tr', htr⟩ := auto_fetch_trace server R first restS sid hsess hsideq hsid
    simp only [call_tool, hres, hcat, if_true, hR, hsucc, hbeq, Bool.true_and]
    rcases hafp : auto_fetch_session_body server R with ⟨fuO, tr⟩
    rw [hafp] at htr
    dsimp only at htr
    cases fuO with
    | some fu =>
      dsimp only
      split
      · rw [htr]; rfl
      · rw [htr]; rfl
    | none =>
      dsimp only
      rw [htr]; rfl
  · intro bkvs hBd hf hnote
    subst hBd
    have haf := auto_fetch_fail server R first restS sid bkvs hsess hsideq hsid hB hf
    have hne : bkvs ≠ [] := by
      intro he
      rw [he] at hf
      simp [kvGet] at hf
    have hft : pyTruthy (pySetdefault (pdict bkvs) (S "note")
        (pstr (S "Automatic session body lookup failed or returned no content."))) = true :=
      pyTruthy_pySetdefault_pdict _ _ _ hne
    simp only [call_tool, hres, hcat, if_true, hR, hsucc, hbeq, Bool.true_and, haf]
    simp only [hft, if_true]
    rw [attach_follow_up_absent R _ hfu0]
    constructor
    · exact pyGet_pySet_ne _ _ _ _ (by decide)
    · refine ⟨pySetdefault (pdict bkvs) (S "note")
        (pstr (S "Automatic session body lookup failed or returned no content.")), ?_, ?_, ?_⟩
      · rw [hRd]
        exact pyGet_pySet_self _ _ _
      · exact pyGet_pySetdefault_absent bkvs _ _ hnote
      · intro k hk
        exact pyGet_pySetdefault_ne _ _ _ _ (fun he => hk he.symm)
  · intro bkvs hBd hsf htrB hse hsa hrb hqb hcl
    subst hBd
    have hszB : pyGetN (pdict bkvs) (S "content_length") = pnull :=
      pyGetN_pdict_absent _ _ hcl
    have haf := auto_fetch_plain server R first restS sid bkvs hsess hsideq hsid hB hsf htrB
    rw [hszB] at haf
    rw [auto_fetch_post_plain bkvs _ _ _ _ _ _ hse hsa hrb hqb] at haf
    have hfutruthy : pyTruthy (pySetdefault
        (pySet (pdict bkvs) (S "_auto_fetch_metadata") (auto_fetch_meta (first :: restS) first sid))
        (S "auto_note")
        (pstr ((if !pyTruthy (truncFlag (pdict bkvs)) then S "Full body retrieved"
                else S "Body preview truncated; saved full payload to disk")
               ++ (if decide (1 < dupCount (first :: restS) sid) then
                     S " [Session " ++ sid ++ S " at " ++ pyToStr (received_iso first)
                     ++ S " - " ++ natDigits (dupCount (first :: restS) sid) ++ S " total with this ID]"
                   else [])))) = true := by
      show pyTruthy (pySetdefault (pdict (kvSet bkvs (S "_auto_fetch_metadata")
        (auto_fetch_meta (first :: restS) first sid))) (S "auto_note") _) = true
      exact pyTruthy_pySetdefault_pdict _ _ _ (kvSet_ne_nil _ _ _)
    simp only [call_tool, hres, hcat, if_true, hR, hsucc, hbeq, Bool.true_and, haf]
    simp only [hfutruthy, if_true]
    rw [attach_follow_up_absent R _ hfu0]
    refine ⟨pySetdefault
        (pySet (pdict bkvs) (S "_auto_fetch_metadata") (auto_fetch_meta (first :: restS) first sid))
        (S "auto_note")
        (pstr ((if !pyTruthy (truncFlag (pdict bkvs)) then S "Full body retrieved"
                else S "Body preview truncated; saved full payload to disk")
               ++ (if decide (1 < dupCount (first :: restS) sid) then
                     S " [Session " ++ sid ++ S " at " ++ pyToStr (received_iso first)
                     ++ S " - " ++ natDigits (dupCount (first :: restS) sid)
                     ++ S " total with this ID]"
                   else []))), ?_, ?_, rfl, rfl, ?_, ?_⟩
    · rw [hRd]
      exact pyGet_pySet_self _ _ _
    · rw [pyGet_pySetdefault_ne _ _ _ _ (by decide)]
      exact pyGet_pySet_self _ _ _
    · intro k hk1 hk2
      rw [pyGet_pySetdefault_ne _ _ _ _ (fun he => hk2 he.symm)]
      exact pyGet_pySet_ne _ _ _ _ (fun he => hk1 he.symm)
    · exact pyGet_pySet_ne _ _ _ _ (by decide)

/-- Search catalog, matches and server used to instantiate C7. -/
def c7first : PyVal := pdict [(S "id", pstr (S "42"))]

def c7R : PyVal :=
  pdict [(S "success", pbool true), (S "sessions", plist [c7first])]

def c7B : PyVal := pdict [(S "success", pbool true), (S "body_size", pint 10)]

def c7tools : List PyVal :=
  [pdict [(S "name", pstr (S "fiddler_mcp__sessions_search"))],
   pdict [(S "name", pstr (S "fiddler_mcp__session_body"))]]

def c7server : McpCallReq → PyVal := fun r =>
  if r.name = S "fiddler_mcp__sessions_search" then
    pdict [(S "result", c7R)]
  else
    pdict [(S "result", c7B)]

theorem call_tool_search_autofetch_witness :
    (call_tool c7tools c7server (S "fiddler_mcp__sessions_search") (pdict [])).2.take 2 =
      [⟨S "fiddler_mcp__sessions_search", pdict []⟩,
       ⟨S "fiddler_mcp__session_body", pdict [(S "session_id", pstr (S "42"))]⟩] ∧
    (∃ fu, pyGet (call_tool c7tools c7server (S "fiddler_mcp__sessions_search") (pdict [])).1
        (S "_follow_up") = some (pdict [(S "session_body_preview", fu)]) ∧
      pyGet fu (S "_auto_fetch_metadata") =
        some (auto_fetch_meta [c7first] c7first (S "42"))) := by
  have h := call_tool_search_autofetch c7tools c7server (pdict []) c7R c7first c7B []
    (S "42") rfl rfl rfl rfl rfl rfl rfl rfl
  obtain ⟨fu, h1, h2, _, _, _, _⟩ := h.2.2
    [(S "success", pbool true), (S "body_size", pint 10)] rfl rfl rfl rfl rfl rfl rfl rfl
  exact ⟨h.1, fu, h1, h2⟩

/-- Updating a dict value keeps it a dict. -/
lemma isDict_pySet_dict (v : PyVal) (k : List Char) (x : PyVal) (h : isDict v = true) :
    isDict (pySet v k x) = true := by
  cases v <;> simp_all [pySet, isDict]

lemma isDict_pySetdefault_dict (v : PyVal) (k : List Char) (x : PyVal) (h : isDict v = true) :
    isDict (pySetdefault v k x) = true := by
  cases v with
  | pdict kvs =>
    show isDict (if (kvGet kvs k).isSome = true then pdict kvs
                 else pdict (kvSet kvs k x)) = true
    split <;> rfl
  | pnull => simp [isDict] at h
  | pbool b => simp [isDict] at h
  | pint n => simp [isDict] at h
  | pstr s => simp [isDict] at h
  | plist xs => simp [isDict] at h

lemma pyTruthy_pySetdefault_dict (v : PyVal) (k : List Char) (x : PyVal)
    (h : isDict v = true) : pyTruthy (pySetdefault v k x) = true := by
  cases v with
  | pdict kvs =>
    show pyTruthy (if (kvGet kvs k).isSome = true then pdict kvs
                   else pdict (kvSet kvs k x)) = true
    split
    · rename_i hk
      cases kvs with
      | nil => simp [kvGet] at hk
      | cons p l => rfl
    · cases hk : kvSet kvs k x with
      | nil => exact absurd hk (kvSet_ne_nil kvs k x)
      | cons p l => rfl
  | pnull => simp [isDict] at h
  | pbool b => simp [isDict] at h
  | pint n => simp [isDict] at h
  | pstr s => simp [isDict] at h
  | plist xs => simp [isDict] at h

set_option maxHeartbeats 2000000

/-- The post-fetch processing never introduces `_auto_fetch_metadata`: if the
body it starts from lacks the key, so does its result.  (This is the heart of
the C8 divergence: after a truncation re-fetch the processing starts from the
raw re-fetched payload, not the annotated one.) -/
lemma auto_fetch_post_meta_none (body tflag sizeV : PyVal) (sid : List Char) (iso : PyVal)
    (hasDup : Bool) (dupLen : Nat)
    (h : pyGet body (S "_auto_fetch_metadata") = none) :
    pyGet (auto_fetch_post body tflag sizeV sid iso hasDup dupLen)
      (S "_auto_fetch_metadata") = none := by
  have d1 := fun (v x : PyVal) =>
    pyGet_pySetdefault_ne v (S "auto_note") (S "_auto_fetch_metadata") x (by decide)
  have d2 := fun (v x : PyVal) =>
    pyGet_pySetdefault_ne v (S "auto_note_details") (S "_auto_fetch_metadata") x (by decide)
  have p1 := fun (v x : PyVal) =>
    pyGet_pySet_ne v (S "response_body_analyzed") (S "_auto_fetch_metadata") x (by decide)
  have p2 := fun (v x : PyVal) =>
    pyGet_pySet_ne v (S "response_body") (S "_auto_fetch_metadata") x (by decide)
  have p3 := fun (v x : PyVal) =>
    pyGet_pySet_ne v (S "response_body_preview") (S "_auto_fetch_metadata") x (by decide)
  have p4 := fun (v x : PyVal) =>
    pyGet_pySet_ne v (S "analysis_method") (S "_auto_fetch_metadata") x (by decide)
  have p5 := fun (v x : PyVal) =>
    pyGet_pySet_ne v (S "auto_note") (S "_auto_fetch_metadata") x (by decide)
  have p6 := fun (v x : PyVal) =>
    pyGet_pySet_ne v (S "request_body_preview") (S "_auto_fetch_metadata") x (by decide)
  have p7 := fun (v x : PyVal) =>
    pyGet_pySet_ne v (S "request_body") (S "_auto_fetch_metadata") x (by decide)
  unfold auto_fetch_post
  cases sizeV <;>
    ((try dsimp only)
     repeat' first
      | rw [d1] | rw [d2] | rw [p1] | rw [p2] | rw [p3] | rw [p4] | rw [p5] | rw [p6]
      | rw [p7]
      | split) <;>
    exact h

/-- The post-fetch processing of a dict body is a non-empty dict, hence
truthy (it always holds at least an `auto_note`). -/
lemma auto_fetch_post_truthy (rawkvs : List (List Char × PyVal)) (tflag sizeV : PyVal)
    (sid : List Char) (iso : PyVal) (hasDup : Bool) (dupLen : Nat) :
    pyTruthy (auto_fetch_post (pdict rawkvs) tflag sizeV sid iso hasDup dupLen) = true := by
  unfold auto_fetch_post
  cases sizeV <;>
    ((try dsimp only)
     apply pyTruthy_pySetdefault_dict
     repeat' first
       | apply isDict_pySetdefault_dict
       | apply isDict_pySet_dict
       | split
       | rfl)

/-- The full-payload re-fetch request issued when the first fetched body is
marked truncated: `include_binary = True` and the computed `smart_extract`
argument. -/
def autoFetchReq2 (first : PyVal) (restS : List PyVal) (sid : List Char)
    (bkvs : List (List Char × PyVal)) : McpCallReq :=
  ⟨S "fiddler_mcp__session_body",
   pdict [(S "session_id", pstr sid),
          (S "include_binary", pbool true),
          (S "smart_extract", smart_extract_arg
             (pySet (pdict bkvs) (S "_auto_fetch_metadata")
               (auto_fetch_meta (first :: restS) first sid)))]⟩

/-- Branch of `_auto_fetch_session_body` in which the fetched body is a
successful dict marked truncated: the fetch is reissued as `autoFetchReq2`,
and the result is the post-processing of the raw re-fetched payload on
success, or the annotated first body with a failure `auto_note` otherwise. -/
lemma auto_fetch_trunc (server : McpCallReq → PyVal) (R first : PyVal) (restS : List PyVal)
    (sid : List Char) (bkvs : List (List Char × PyVal))
    (hsess : pyGet R (S "sessions") = some (plist (first :: restS)))
    (hsideq : pyStrip (pyToStr (pyGetDef first (S "id") (pstr []))) = sid)
    (hsid : sid.isEmpty = false)
    (hB : parse_tool_response (server ⟨S "fiddler_mcp__session_body",
            pdict [(S "session_id", pstr sid)]⟩) = pdict bkvs)
    (hsf : successIsFalse (pdict bkvs) = false)
    (htrB : pyTruthy (truncFlag (pdict bkvs)) = true) :
    auto_fetch_session_body server R =
      (if isDict (parse_tool_response (server (autoFetchReq2 first restS sid bkvs)))
          && pyTruthy (pyGetN (parse_tool_response (server (autoFetchReq2 first restS sid bkvs)))
               (S "success")) then
        (some (auto_fetch_post
            (parse_tool_response (server (autoFetchReq2 first restS sid bkvs)))
            (truncFlag (parse_tool_response (server (autoFetchReq2 first restS sid bkvs))))
            (pyGetDef (parse_tool_response (server (autoFetchReq2 first restS sid bkvs)))
              (S "content_length")
              (pyGetN (pySet (pdict bkvs) (S "_auto_fetch_metadata")
                 (auto_fetch_meta (first :: restS) first sid)) (S "content_length")))
            sid (received_iso first) (decide (1 < dupCount (first :: restS) sid))
            (dupCount (first :: restS) sid)),
         [⟨S "fiddler_mcp__session_body", pdict [(S "session_id", pstr sid)]⟩,
          autoFetchReq2 first restS sid bkvs])
      else
        (some (pySetdefault (pySet (pdict bkvs) (S "_auto_fetch_metadata")
             (auto_fetch_meta (first :: restS) first sid)) (S "auto_note")
           (pstr (S "Body preview was truncated and full fetch failed; inspect manually via fiddler_mcp__session_body"))),
         [⟨S "fiddler_mcp__session_body", pdict [(S "session_id", pstr sid)]⟩,
          autoFetchReq2 first restS sid bkvs])) := by
  unfold auto_fetch_session_body autoFetchReq2
  rw [hsess]
  dsimp only
  rw [hsideq]
  simp only [hsid, Bool.false_eq_true, if_false, hB, isDict, Bool.not_true, hsf]
  rw [truncFlag_pySet_meta]
  simp only [htrB, eq_self_iff_true, if_true]

/-- The `smart_extract` argument of the re-fetch is truthy exactly when the
first body's `content_type` contains `javascript` (case-insensitively) and
its `content_length` exceeds 50000. -/
lemma smart_extract_arg_spec (bkvs : List (List Char × PyVal)) (M : PyVal)
    (ct : List Char) (n : Int)
    (hct : kvGet bkvs (S "content_type") = some (pstr ct))
    (hcl : kvGet bkvs (S "content_length") = some (pint n)) :
    pyTruthy (smart_extract_arg (pySet (pdict bkvs) (S "_auto_fetch_metadata") M)) =
      (substrOf (S "javascript") (ct.map Char.toLower) && decide ((50000 : Int) < n)) := by
  unfold smart_extract_arg
  have hct' : pyGetDef (pySet (pdict bkvs) (S "_auto_fetch_metadata") M)
      (S "content_type") (pstr []) = pstr ct := by
    rw [pyGetDef_pySet_ne _ _ _ _ _ (by decide)]
    unfold pyGetDef
    rw [pyGet_pdict, hct]
  have hcl' : pyGetN (pySet (pdict bkvs) (S "_auto_fetch_metadata") M)
      (S "content_length") = pint n := by
    rw [pyGetN_pySet_ne _ _ _ _ (by decide)]
    unfold pyGetN pyGetDef
    rw [pyGet_pdict, hcl]
  simp only [hct', hcl']
  have hctv : (if pyTruthy (pstr ct) = true then pstr ct else pstr []) = pstr ct := by
    split
    · rfl
    · rename_i h
      cases ct with
      | nil => rfl
      | cons a l => exact absurd rfl h
  simp only [hctv]
  by_cases hjs : substrOf (S "javascript") (ct.map Char.toLower) = true
  · simp only [pStrOf, hjs, Bool.not_true, Bool.false_eq_true, if_false, Bool.true_and]
    by_cases hn : pyTruthy (pint n) = true
    · simp only [hn, Bool.not_true, Bool.false_eq_true, if_false]
      rfl
    · have hnf : pyTruthy (pint n) = false := by
        cases hh : pyTruthy (pint n) with
        | true => exact absurd hh hn
        | false => rfl
      have hn0 : n = 0 := by
        have : (n != 0) = false := hnf
        simpa using this
      subst hn0
      simp only [hnf, Bool.not_false, if_true]
      rfl
  · have hjsf : substrOf (S "javascript") (ct.map Char.toLower) = false := by
      cases hh : substrOf (S "javascript") (ct.map Char.toLower) with
      | true => exact absurd hh hjs
      | false => rfl
    simp only [pStrOf, hjsf, Bool.not_false, if_true, Bool.false_and]
    rfl

/-- C8 (amended): whenever the auto-fetched session body is a successful
dict marked truncated, `call_tool` reissues the fetch in full-payload mode
(`include_binary = true`), with `smart_extract` truthy exactly when the
body's content type contains `javascript` and its reported content length
exceeds the 50000-byte threshold; but the merged result is then built from
the re-fetched payload alone, so whenever that payload lacks
`_auto_fetch_metadata` (the server does not echo client annotations), the
merged follow-up lacks the original match metadata — contrary to the claim
that it carries both the metadata and the extracted sections. -/
theorem auto_fetch_truncation_refetch (tools : List PyVal) (server : McpCallReq → PyVal)
    (args : PyVal) (R first : PyVal) (restS : List PyVal) (sid : List Char)
    (bkvs : List (List Char × PyVal)) (ct : List Char) (n : Int)
    (hcat : (valid_tool_names tools).contains (S "fiddler_mcp__sessions_search") = true)
    (hR : parse_tool_response (server ⟨S "fiddler_mcp__sessions_search", args⟩) = R)
    (hsucc : pyTruthy (pyGetN R (S "success")) = true)
    (hsess : pyGet R (S "sessions") = some (plist (first :: restS)))
    (hsideq : pyStrip (pyToStr (pyGetDef first (S "id") (pstr []))) = sid)
    (hsid : sid.isEmpty = false)
    (hfu0 : pyGet R (S "_follow_up") = none)
    (hB : parse_tool_response (server ⟨S "fiddler_mcp__session_body",
            pdict [(S "session_id", pstr sid)]⟩) = pdict bkvs)
    (hsf : successIsFalse (pdict bkvs) = false)
    (htrB : pyTruthy (truncFlag (pdict bkvs)) = true)
    (hct : kvGet bkvs (S "content_type") = some (pstr ct))
    (hcl : kvGet bkvs (S "content_length") = some (pint n)) :
    (call_tool tools server (S "fiddler_mcp__sessions_search") args).2 =
      [⟨S "fiddler_mcp__sessions_search", args⟩,
       ⟨S "fiddler_mcp__session_body", pdict [(S "session_id", pstr sid)]⟩,
       autoFetchReq2 first restS sid bkvs] ∧
    pyTruthy (smart_extract_arg (pySet (pdict bkvs) (S "_auto_fetch_metadata")
        (auto_fetch_meta (first :: restS) first sid))) =
      (substrOf (S "javascript") (ct.map Char.toLower) && decide ((50000 : Int) < n)) ∧
    (∀ rawkvs, parse_tool_response (server (autoFetchReq2 first restS sid bkvs)) = pdict rawkvs →
      pyTruthy (pyGetN (pdict rawkvs) (S "success")) = true →
      kvGet rawkvs (S "_auto_fetch_metadata") = none →
      ∃ fu, pyGet (call_tool tools server (S "fiddler_mcp__sessions_search") args).1
          (S "_follow_up") = some (pdict [(S "session_body_preview", fu)]) ∧
        pyGet fu (S "_auto_fetch_metadata") = none) := by
  have hres : resolve_tool_name (S "fiddler_mcp__sessions_search") =
      S "fiddler_mcp__sessions_search" := rfl
  have hbeq : (S "fiddler_mcp__sessions_search" == S "fiddler_mcp__sessions_search") = true := rfl
  obtain ⟨rkvs, hRd⟩ := pyGet_some_dict R _ _ hsess
  have haf := auto_fetch_trunc server R first restS sid bkvs hsess hsideq hsid hB hsf htrB
  refine ⟨?_, smart_extract_arg_spec bkvs _ ct n hct hcl, ?_⟩
  · cases hc : (isDict (parse_tool_response (server (autoFetchReq2 first restS sid bkvs)))
        && pyTruthy (pyGetN (parse_tool_response (server (autoFetchReq2 first restS sid bkvs)))
             (S "success"))) with
    | true =>
      simp only [hc, eq_self_iff_true, if_true] at haf
      simp only [call_tool, hres, hcat, if_true, hR, hsucc, hbeq, Bool.true_and, haf]
      split <;> rfl
    | false =>
      simp only [hc, Bool.false_eq_true, if_false] at haf
      simp only [call_tool, hres, hcat, if_true, hR, hsucc, hbeq, Bool.true_and, haf]
      split <;> rfl
  · intro rawkvs hraw hrsucc hrmeta
    rw [hraw] at haf
    simp only [isDict, hrsucc, Bool.true_and, eq_self_iff_true, if_true] at haf
    have ftruthy := auto_fetch_post_truthy rawkvs (truncFlag (pdict rawkvs))
      (pyGetDef (pdict rawkvs) (S "content_length")
        (pyGetN (pySet (pdict bkvs) (S "_auto_fetch_metadata")
           (auto_fetch_meta (first :: restS) first sid)) (S "content_length")))
      sid (received_iso first) (decide (1 < dupCount (first :: restS) sid))
      (dupCount (first :: restS) sid)
    simp only [call_tool, hres, hcat, if_true, hR, hsucc, hbeq, Bool.true_and, haf]
    simp only [ftruthy, if_true]
    rw [attach_follow_up_absent R _ hfu0]
    refine ⟨auto_fetch_post (pdict rawkvs) (truncFlag (pdict rawkvs))
        (pyGetDef (pdict rawkvs) (S "content_length")
          (pyGetN (pySet (pdict bkvs) (S "_auto_fetch_metadata")
             (auto_fetch_meta (first :: restS) first sid)) (S "content_length")))
        sid (received_iso first) (decide (1 < dupCount (first :: restS) sid))
        (dupCount (first :: restS) sid), ?_, ?_⟩
    · rw [hRd]
      exact pyGet_pySet_self _ _ _
    · exact auto_fetch_post_meta_none _ _ _ _ _ _ _ (by rw [pyGet_pdict, hrmeta])

/-- Truncated-JavaScript scenario instantiating C8: one search match whose
body is truncated, JavaScript-typed and 60000 bytes long; the re-fetch
returns a smart-extraction payload. -/
def c8first : PyVal := pdict [(S "id", pstr (S "7"))]

def c8R : PyVal := pdict [(S "success", pbool true), (S "sessions", plist [c8first])]

def c8B1kvs : List (List Char × PyVal) :=
  [(S "success", pbool true), (S "response_truncated", pbool true),
   (S "content_type", pstr (S "application/javascript")),
   (S "content_length", pint 60000)]

def c8se : PyVal :=
  pdict [(S "head", pstr (S "var a=1;")),
         (S "metadata", pdict [(S "original_size", pint 60000),
                               (S "total_extracted", pint 8)])]

def c8B2kvs : List (List Char × PyVal) :=
  [(S "success", pbool true),
   (S "smart_extraction_available", pbool true),
   (S "smart_extraction", c8se),
   (S "content_length", pint 60000)]

def c8tools : List PyVal :=
  [pdict [(S "name", pstr (S "fiddler_mcp__sessions_search"))],
   pdict [(S "name", pstr (S "fiddler_mcp__session_body"))]]

def c8server : McpCallReq → PyVal := fun r =>
  if r.name = S "fiddler_mcp__sessions_search" then
    pdict [(S "result", c8R)]
  else
    match pyGet r.args (S "include_binary") with
    | some _ => pdict [(S "result", pdict c8B2kvs)]
    | none => pdict [(S "result", pdict c8B1kvs)]

/-- C8 counterexample: in the truncated-JavaScript scenario the re-fetch is
issued with `include_binary = true` and `smart_extract = true`, and the
merged follow-up carries the extracted sections
(`analysis_method = smart_extraction`) but NOT the original match metadata:
`_auto_fetch_metadata` is absent, refuting the claim that the merged result
carries both. -/
theorem auto_fetch_truncation_metadata_lost_cex :
    (call_tool c8tools c8server (S "fiddler_mcp__sessions_search") (pdict [])).2 =
      [⟨S "fiddler_mcp__sessions_search", pdict []⟩,
       ⟨S "fiddler_mcp__session_body", pdict [(S "session_id", pstr (S "7"))]⟩,
       ⟨S "fiddler_mcp__session_body",
        pdict [(S "session_id", pstr (S "7")),
               (S "include_binary", pbool true),
               (S "smart_extract", pbool true)]⟩] ∧
    pyGetN (pyGetN (pyGetN
        (call_tool c8tools c8server (S "fiddler_mcp__sessions_search") (pdict [])).1
        (S "_follow_up")) (S "session_body_preview")) (S "analysis_method") =
      pstr (S "smart_extraction") ∧
    pyGet (pyGetN (pyGetN
        (call_tool c8tools c8server (S "fiddler_mcp__sessions_search") (pdict [])).1
        (S "_follow_up")) (S "session_body_preview")) (S "_auto_fetch_metadata") = none := by
  refine ⟨rfl, rfl, rfl⟩

theorem auto_fetch_truncation_refetch_witness :
    (call_tool c8tools c8server (S "fiddler_mcp__sessions_search") (pdict [])).2 =
      [⟨S "fiddler_mcp__sessions_search", pdict []⟩,
       ⟨S "fiddler_mcp__session_body", pdict [(S "session_id", pstr (S "7"))]⟩,
       autoFetchReq2 c8first [] (S "7") c8B1kvs] ∧
    pyTruthy (smart_extract_arg (pySet (pdict c8B1kvs) (S "_auto_fetch_metadata")
        (auto_fetch_meta [c8first] c8first (S "7")))) =
      (substrOf (S "javascript") ((S "application/javascript").map Char.toLower)
        && decide ((50000 : Int) < 60000)) ∧
    (∃ fu, pyGet (call_tool c8tools c8server (S "fiddler_mcp__sessions_search") (pdict [])).1
        (S "_follow_up") = some (pdict [(S "session_body_preview", fu)]) ∧
      pyGet fu (S "_auto_fetch_metadata") = none) := by
  have h := auto_fetch_truncation_refetch c8tools c8server (pdict []) c8R c8first [] (S "7")
    c8B1kvs (S "application/javascript") 60000
    rfl rfl rfl rfl rfl rfl rfl rfl rfl rfl rfl rfl
  exact ⟨h.1, h.2.1, h.2.2 c8B2kvs rfl rfl rfl⟩
